import Mathlib

/-!
Verification development for the DSX parser (`src/lib/dsxParser.ts`).

The TypeScript source is shallowly embedded: each JavaScript regular
expression used by the parser is translated into an executable matcher on
`List Char` that reproduces the regex engine's leftmost-match, greedy/lazy
and backtracking behaviour for that particular pattern, and each extraction
pass of `extractDSXJobInfo` is translated into a Lean function over those
matchers.  Impure ingredients are made explicit: `new Date().toISOString()`
becomes a `now : String` parameter, and JavaScript string length (UTF-16
code units) is modelled by `jsLength`.
-/

namespace Dsx

/-- JavaScript `\s` character class (also the character set removed by
`String.prototype.trim`): ASCII whitespace, NBSP, the Unicode space
separators, line/paragraph separators and the BOM. -/
def isJsWs (c : Char) : Bool :=
  c == ' ' || c == '\t' || c == '\n' || c == '\r' || c == '\x0b' || c == '\x0c' ||
  c == '\u00A0' || c == '\u1680' || ('\u2000' ≤ c && c ≤ '\u200A') ||
  c == '\u2028' || c == '\u2029' || c == '\u202F' || c == '\u205F' || c == '\u3000' ||
  c == '\uFEFF'

/-- JavaScript `\d`. -/
def isJsDigit (c : Char) : Bool := '0' ≤ c && c ≤ '9'

/-- JavaScript `\w` (word character, used for `\b` boundaries). -/
def isJsWord (c : Char) : Bool :=
  ('a' ≤ c && c ≤ 'z') || ('A' ≤ c && c ≤ 'Z') || isJsDigit c || c == '_'

/-- Characters matched by `.` without the `s` flag: everything except the
JavaScript line terminators. -/
def isDotChar (c : Char) : Bool :=
  !(c == '\n' || c == '\r' || c == '\u2028' || c == '\u2029')

/-- Build a `String` from a character list. -/
def strOf (l : List Char) : String := ⟨l⟩

/-- JavaScript `String.prototype.trim` on a character list. -/
def trimL (l : List Char) : List Char :=
  ((l.dropWhile isJsWs).reverse.dropWhile isJsWs).reverse

/-- JavaScript `String.prototype.trim`. -/
def trimS (s : String) : String := strOf (trimL s.data)

/-- JavaScript `split(c)` on a single-character separator: keeps empty
segments, `"" → [""]`. -/
def splitOnChar (c : Char) : List Char → List (List Char)
  | [] => [[]]
  | d :: ds =>
    let r := splitOnChar c ds
    if d == c then [] :: r
    else
      match r with
      | h :: t => (d :: h) :: t
      | [] => [[d]]

/-- Case-insensitive (ASCII case folding, as JavaScript's `i` flag does for
these patterns) prefix test. -/
def ciPrefix : List Char → List Char → Bool
  | [], _ => true
  | _ :: _, [] => false
  | p :: ps, c :: cs => (p.toLower == c.toLower) && ciPrefix ps cs

/-- Case-sensitive substring occurrence test. -/
def hasSub (pat : List Char) : List Char → Bool
  | [] => pat.isPrefixOf []
  | s@(_ :: cs) => pat.isPrefixOf s || hasSub pat cs

/-- Case-insensitive substring occurrence test (JavaScript `/pat/i.test`). -/
def hasSubCI (pat : List Char) : List Char → Bool
  | [] => ciPrefix pat []
  | s@(_ :: cs) => ciPrefix pat s || hasSubCI pat cs

/-- JavaScript number of UTF-16 code units of a string (`.length`). -/
def jsLength (s : String) : Nat :=
  s.data.foldl (fun n c => n + (if c.toNat ≥ 0x10000 then 2 else 1)) 0

/-- `parseInt(s, 10)`: skip leading whitespace, optional sign, maximal
digit prefix; `none` models `NaN`. -/
def jsParseInt (s : String) : Option Int :=
  let l := s.data.dropWhile isJsWs
  let (neg, l) :=
    match l with
    | '-' :: t => (true, t)
    | '+' :: t => (false, t)
    | t => (false, t)
  let ds := l.takeWhile isJsDigit
  if ds.isEmpty then none
  else
    let n : Nat := ds.foldl (fun a c => a * 10 + (c.toNat - 48)) 0
    some (if neg then -(n : Int) else (n : Int))

/-- Digits-to-Nat (for `\d+` captures fed to `parseInt`). -/
def natOfDigits (l : List Char) : Nat :=
  l.foldl (fun a c => a * 10 + (c.toNat - 48)) 0

/-! ### Deterministic matchers for the parser's regular expressions

`P α` is a matcher that either fails or matches a prefix of the input,
returning a result and the remaining input.  Each combinator documents the
regex fragment it implements; greedy runs followed by a literal outside the
run's character class need no backtracking, which covers every pattern in
the source except the `WHERE`-clause pattern (implemented separately with
its full backtracking order). -/

def P (α : Type) : Type := List Char → Option (α × List Char)

/-- Literal fragment of a pattern. -/
def pLit (lit : String) : P Unit := fun s =>
  if lit.data.isPrefixOf s then some ((), s.drop lit.length) else none

/-- Greedy `X+` for a character class `f`, where the following pattern
element cannot match a class character (so no backtracking arises). -/
def pRun1 (f : Char → Bool) : P (List Char) := fun s =>
  let r := s.takeWhile f
  if r.isEmpty then none else some (r, s.drop r.length)

/-- Greedy `X*` under the same no-backtracking condition. -/
def pRun0 (f : Char → Bool) : P (List Char) := fun s =>
  some (s.takeWhile f, s.drop (s.takeWhile f).length)

/-- Single character from a class. -/
def pChar (f : Char → Bool) : P Char := fun s =>
  match s with
  | [] => none
  | c :: cs => if f c then some (c, cs) else none

/-- Lazy `(.*?)`-style capture: consume characters from `allowed` one at a
time, trying `stop` before each; succeeds at the first position where
`stop` matches, returning the capture and the input past `stop`. -/
def lazyUntil (allowed : Char → Bool) (stop : P β) : List Char → List Char →
    Option (List Char × List Char)
  | acc, [] =>
    match stop [] with
    | some (_, r) => some (acc.reverse, r)
    | none => none
  | acc, c :: cs =>
    match stop (c :: cs) with
    | some (_, r) => some (acc.reverse, r)
    | none => if allowed c then lazyUntil allowed stop (c :: acc) cs else none

/-- `[\s\S]*?p`: earliest suffix position at which `p` matches (the regex
engine's lazy skip; by monotonicity of the literal-led sub-patterns used
here this is exactly the backtracking semantics). -/
def seekP (p : P α) : List Char → Option (α × List Char)
  | [] => p []
  | c :: cs =>
    match p (c :: cs) with
    | some r => some r
    | none => seekP p cs

/-- `regex.exec` loop with the `g` flag: collect every match left to right,
resuming after each match end, advancing one position on failure.  `fuel`
is an upper bound on steps; callers pass `input.length + 1`, sufficient
because every pattern here consumes at least one character. -/
def globalScan : Nat → P α → List Char → List α
  | 0, _, _ => []
  | fuel + 1, p, s =>
    match p s with
    | some ar => ar.1 :: globalScan fuel p ar.2
    | none =>
      match s with
      | [] => []
      | _ :: cs => globalScan fuel p cs

/-- `globalScan` variant also reporting each `match.index`. -/
def globalScanIdx : Nat → Nat → P α → List Char → List (Nat × α)
  | 0, _, _, _ => []
  | fuel + 1, i, p, s =>
    match p s with
    | some ar => (i, ar.1) :: globalScanIdx fuel (i + (s.length - ar.2.length)) p ar.2
    | none =>
      match s with
      | [] => []
      | _ :: cs => globalScanIdx fuel (i + 1) p cs

/-- Matcher for `KEY"([^"]+)"` (the key string includes the opening
quote), e.g. `/Identifier "([^"]+)"/`. -/
def quotedCapM (key : String) : P String := fun s => do
  let (_, s1) ← pLit key s
  let (cap, s2) ← pRun1 (fun c => !(c == '"')) s1
  let (_, s3) ← pLit "\"" s2
  pure (strOf cap, s3)

/-- Matcher for `KEY"(.*?)"` — lazy capture, `.` excludes line
terminators — e.g. `/StageList "(.*?)"/`. -/
def quotedLazyM (key : String) : P String := fun s => do
  let (_, s1) ← pLit key s
  let (cap, s2) ← lazyUntil isDotChar (pLit "\"") [] s1
  pure (strOf cap, s2)

/-- Matcher for `KEY([\s\S]*?)=+=+=+=` sentinel blocks (key includes the
opening sentinel), e.g. the `FullDescription` and `Value` blocks. -/
def sentCapM (key : String) : P String := fun s => do
  let (_, s1) ← pLit key s
  let (cap, s2) ← lazyUntil (fun _ => true) (pLit "=+=+=+=") [] s1
  pure (strOf cap, s2)

/-- First (leftmost) match of a `KEY"([^"]+)"` pattern in the input
(`String.prototype.match` without `g`). -/
def firstCap (key : String) (s : List Char) : Option String :=
  (seekP (quotedCapM key) s).map (fun r => r.1)

/-- First match of a `KEY"(.*?)"` pattern. -/
def firstLazyCap (key : String) (s : List Char) : Option String :=
  (seekP (quotedLazyM key) s).map (fun r => r.1)

/-- First match of a sentinel-block pattern. -/
def firstSent (key : String) (s : List Char) : Option String :=
  (seekP (sentCapM key) s).map (fun r => r.1)

/-! ### Code tables (`jobTypeMap`, `paramTypeMap`, `mapSqlType`) -/

/-- `jobTypeMap[code] || Unknown (code)` (dsxParser.ts lines 120-126). -/
def jobTypeLabel (c : String) : String :=
  if c = "0" then "Server Job"
  else if c = "1" then "Parallel Job"
  else if c = "2" then "Sequence Job"
  else if c = "3" then "Server Routine"
  else "Unknown (" ++ c ++ ")"

/-- `paramTypeMap[code] || Unknown (code)` (dsxParser.ts lines 140-157). -/
def paramTypeLabel (c : String) : String :=
  if c = "1" then "String"
  else if c = "2" then "Integer"
  else if c = "3" then "Float"
  else if c = "4" then "Pathname"
  else if c = "5" then "List"
  else if c = "6" then "Date"
  else if c = "7" then "Time"
  else if c = "8" then "Timestamp"
  else if c = "13" then "EnvironmentVar"
  else "Unknown (" ++ c ++ ")"

/-- The `typeMap[sqlType] || UNKNOWN(sqlType)` step of `mapSqlType`
(dsxParser.ts lines 653-681). -/
def sqlTypeBase (c : String) : String :=
  if c = "1" then "CHAR"
  else if c = "2" then "NUMERIC"
  else if c = "3" then "DECIMAL"
  else if c = "4" then "INTEGER"
  else if c = "5" then "SMALLINT"
  else if c = "6" then "FLOAT"
  else if c = "7" then "REAL"
  else if c = "8" then "DOUBLE"
  else if c = "9" then "DATE"
  else if c = "10" then "TIME"
  else if c = "11" then "TIMESTAMP"
  else if c = "12" then "VARCHAR"
  else if c = "-1" then "LONGVARCHAR"
  else if c = "-2" then "BINARY"
  else if c = "-3" then "VARBINARY"
  else if c = "-4" then "LONGVARBINARY"
  else if c = "-5" then "BIGINT"
  else if c = "-6" then "TINYINT"
  else if c = "-7" then "BIT"
  else if c = "-8" then "WCHAR"
  else if c = "-9" then "WVARCHAR"
  else if c = "-10" then "WLONGVARCHAR"
  else if c = "91" then "TYPE_DATE"
  else if c = "92" then "TYPE_TIME"
  else if c = "93" then "TYPE_TIMESTAMP"
  else "UNKNOWN(" ++ c ++ ")"

/-- `mapSqlType` (dsxParser.ts lines 652-694): base name plus
precision/scale suffix for the character and numeric families. -/
def mapSqlType (sqlType precision scale : String) : String :=
  let typeName := sqlTypeBase sqlType
  if ["NUMERIC", "DECIMAL", "CHAR", "VARCHAR"].contains typeName then
    if precision ≠ "" ∧ precision ≠ "0" then
      if scale ≠ "" ∧ scale ≠ "0" then
        typeName ++ "(" ++ precision ++ "," ++ scale ++ ")"
      else typeName ++ "(" ++ precision ++ ")"
    else typeName
  else typeName


/-! ### String normalization passes used by the extractors -/

/-- `replace(/\s+/g, ' ')` — the flag records whether the scan is inside a
whitespace run. -/
def collapseWsAux : Bool → List Char → List Char
  | _, [] => []
  | inRun, c :: cs =>
    if isJsWs c then
      if inRun then collapseWsAux true cs else ' ' :: collapseWsAux true cs
    else c :: collapseWsAux false cs

/-- `replace(/\s+/g, ' ')`. -/
def collapseWsL (l : List Char) : List Char := collapseWsAux false l

/-- `replace(/ +/g, ' ')` (literal space characters only). -/
def collapseSpacesAux : Bool → List Char → List Char
  | _, [] => []
  | inRun, c :: cs =>
    if c == ' ' then
      if inRun then collapseSpacesAux true cs else ' ' :: collapseSpacesAux true cs
    else c :: collapseSpacesAux false cs

/-- `replace(/ +/g, ' ')`. -/
def collapseSpacesL (l : List Char) : List Char := collapseSpacesAux false l

/-- One block comment: `\/\*.*?\*\/` (no `s` flag, so the body may not
contain a line terminator). -/
def commentM : P Unit := fun s => do
  let (_, s1) ← pLit "/*" s
  let (_, s2) ← lazyUntil isDotChar (pLit "*/") [] s1
  pure ((), s2)

/-- `replace(/\/\*.*?\*\//g, '')`. -/
def stripComments : Nat → List Char → List Char
  | 0, s => s
  | fuel + 1, s =>
    match commentM s with
    | some (_, r) => stripComments fuel r
    | none =>
      match s with
      | [] => []
      | c :: cs => c :: stripComments fuel cs

/-- One `#...#` parameter placeholder: `#[^#]+#`. -/
def paramRedM : P Unit := fun s => do
  let (_, s1) ← pLit "#" s
  let (_, s2) ← pRun1 (fun c => !(c == '#')) s1
  let (_, s3) ← pLit "#" s2
  pure ((), s3)

/-- `replace(/#[^#]+#/g, '[PARAM]')`. -/
def redactParams : Nat → List Char → List Char
  | 0, s => s
  | fuel + 1, s =>
    match paramRedM s with
    | some (_, r) => "[PARAM]".data ++ redactParams fuel r
    | none =>
      match s with
      | [] => []
      | c :: cs => c :: redactParams fuel cs

/-- `replace(/\r?\n\s*/g, '\n')` — the SQL-script re-indentation pass. -/
def nlNorm : Nat → List Char → List Char
  | 0, s => s
  | fuel + 1, '\r' :: '\n' :: cs => '\n' :: nlNorm fuel (cs.dropWhile isJsWs)
  | fuel + 1, '\n' :: cs => '\n' :: nlNorm fuel (cs.dropWhile isJsWs)
  | fuel + 1, c :: cs => c :: nlNorm fuel cs
  | _ + 1, [] => []

/-- `replace(/\r?\n/g, ' ')` — description line-break collapsing. -/
def nlToSpace : List Char → List Char
  | '\r' :: '\n' :: cs => ' ' :: nlToSpace cs
  | '\n' :: cs => ' ' :: nlToSpace cs
  | c :: cs => c :: nlToSpace cs
  | [] => []

/-- `s.split(sep)[0]`: the prefix before the first occurrence of `sep`
(the whole string when `sep` does not occur). -/
def jsSplitHead (sep : List Char) : List Char → List Char
  | [] => []
  | c :: cs =>
    if sep.isPrefixOf (c :: cs) && !sep.isEmpty then []
    else c :: jsSplitHead sep cs

/-- End position of the last occurrence of `sep` (scanning left to right,
non-overlapping, as `String.prototype.split` does). -/
def lastOccEnd (sep : List Char) : Nat → Nat → Option Nat → List Char → Option Nat
  | 0, _, last, _ => last
  | fuel + 1, i, last, s =>
    if sep.isPrefixOf s && !sep.isEmpty then
      lastOccEnd sep fuel (i + sep.length) (some (i + sep.length)) (s.drop sep.length)
    else
      match s with
      | [] => last
      | _ :: cs => lastOccEnd sep fuel (i + 1) last cs

/-- `prefixText.split(sep).pop() || ""`: the text after the last occurrence
of `sep`, or the whole text if `sep` does not occur. -/
def lastSegAfter (sep : String) (s : List Char) : List Char :=
  match lastOccEnd sep.data (s.length + 1) 0 none s with
  | some e => s.drop e
  | none => s

/-- `description.split('\r\n\r\n')[0] || fullDesc`, line-break collapsing
and trimming (dsxParser.ts lines 108-114) applied to the captured
description block. -/
def descriptionOf (block : String) : String :=
  let fd := trimL block.data
  let fp0 := jsSplitHead "\r\n\r\n".data fd
  let fp := if fp0.isEmpty then fd else fp0
  strOf (trimL (nlToSpace fp))

/-! ### The WHERE-clause extractor (`extractWhereClauses`, lines 637-649)

Pattern `/\bWHERE\b\s+(.*?)(?:\bGROUP BY\b|\bORDER BY\b|\bHAVING\b|$)/gi`.
This is the one pattern whose `\s+`/lazy-dot interplay needs the regex
engine's real backtracking order: the greedy `\s+` run is tried longest
first; inside each choice the lazy capture grows one (non-line-terminator)
character at a time, testing the terminator alternation (then `$`) before
each growth step.  Word boundaries are evaluated against the true
preceding character. -/

/-- Try the terminator alternation `(?:\bGROUP BY\b|\bORDER BY\b|\bHAVING\b|$)`
at the current point, given the preceding character.  Returns the input
past the terminator and the last character the terminator consumed. -/
def whereTermAt (prevC : Char) (t : List Char) : Option (List Char × Char) :=
  let tryLit : List Char → Option (List Char × Char) := fun lit =>
    if !(isJsWord prevC) && ciPrefix lit t then
      let rest := t.drop lit.length
      let okB :=
        match rest.head? with
        | some c => !(isJsWord c)
        | none => true
      if okB then some (rest, (lit.getLast?).getD prevC) else none
    else none
  match tryLit "GROUP BY".data with
  | some r => some r
  | none =>
    match tryLit "ORDER BY".data with
    | some r => some r
    | none =>
      match tryLit "HAVING".data with
      | some r => some r
      | none => if t.isEmpty then some ([], prevC) else none

/-- Lazy growth of the `(.*?)` capture: test the terminator before each
character; capture characters must not be line terminators. -/
def whereCapFrom : Char → List Char → List Char → Option (List Char × List Char × Char)
  | prevC, acc, t =>
    match whereTermAt prevC t with
    | some (rest, lc) => some (acc.reverse, rest, lc)
    | none =>
      match t with
      | [] => none
      | c :: cs => if isDotChar c then whereCapFrom c (c :: acc) cs else none

/-- Greedy `\s+` descent: try the whitespace run longest first (`w + 1`
characters), falling back to shorter runs. -/
def whereWsDescend (after5 : List Char) (wsRun : List Char) : Nat → Option (List Char × List Char × Char)
  | 0 => none
  | w + 1 =>
    let prevC := (wsRun.get? w).getD ' '
    match whereCapFrom prevC [] (after5.drop (w + 1)) with
    | some r => some r
    | none => whereWsDescend after5 wsRun w

/-- Full pattern at a candidate position whose leading `\b` the caller has
already checked; returns (capture, rest-after-match, last matched char). -/
def whereMatchAt (s : List Char) : Option (List Char × List Char × Char) :=
  if ciPrefix "WHERE".data s then
    let after5 := s.drop 5
    let wsRun := after5.takeWhile isJsWs
    whereWsDescend after5 wsRun wsRun.length
  else none

/-- The `exec` loop of `extractWhereClauses`, tracking the character before
the scan position for the leading `\b`. -/
def whereScanAux : Nat → Option Char → List Char → List String
  | 0, _, _ => []
  | fuel + 1, prev, s =>
    match s with
    | [] => []
    | c :: cs =>
      let boundary :=
        match prev with
        | some pc => !(isJsWord pc)
        | none => true
      match (if boundary then whereMatchAt s else none) with
      | some (cap, rest, lc) =>
        let cl := trimL cap
        (if !cap.isEmpty && !cl.isEmpty then [strOf cl] else []) ++
          whereScanAux fuel (some lc) rest
      | none => whereScanAux fuel (some c) cs

/-- `extractWhereClauses` (dsxParser.ts lines 637-649). -/
def extractWhereClauses (sql : String) : List String :=
  whereScanAux (sql.data.length + 1) none sql.data

/-! ### Data model (`src/lib/types/dsxTypes.ts`)

Optional TypeScript fields become `Option`; fields are listed in the
property-insertion order the parser uses, which fixes the key order of the
JSON serialization below. -/

structure DSXParameter where
  name : String
  prompt : String
  defaultVal : String
  help : String
  type : String
deriving DecidableEq

structure DSXColumn where
  name : String
  type : String
  nullable : Bool
  derivation : Option String
deriving DecidableEq

structure DSXSource where
  name : String
  type : String
  columns : List DSXColumn
  sql : Option String
  where_clauses : Option (List String)
  table : Option String
  connection : Option String
  database : Option String
deriving DecidableEq

/-- Targets take two shapes in the source: context-2 property-block targets
(`{name, type, columns, table?, mode?, connection?, database?}`) and
dataset targets (`{type: "dataset", dataset, name?, mode?}`). -/
inductive DSXTarget where
  | ctx (name type : String) (columns : List DSXColumn)
        (table mode connection database : Option String)
  | dataset (dataset : String) (name : Option String) (mode : Option String)
deriving DecidableEq

/-- The `name` property of a target, absent for a dataset target whose
window scan found no stage name (`t.name` is `undefined` there). -/
def DSXTarget.nameOpt : DSXTarget → Option String
  | .ctx n _ _ _ _ _ _ => some n
  | .dataset _ n _ => n

structure DSXTransform where
  name : String
  rules : List String
  input : Option String
  output : Option String
  reject_conditions : Option (List String)
deriving DecidableEq

structure DSXSqlScript where
  stage : String
  type : String
  sql : String
deriving DecidableEq

structure DSXLookup where
  name : String
  type : String
  inputs : List String
  output : String
  key_columns : List String
  fail_mode : String
  lookup_type : Option String
  residual_handling : Option String
deriving DecidableEq

/-- `DSXFlowConnection`; `from`/`to` are Lean keywords, so the fields are
named `fromStage`/`toStage` (the JSON serializer still emits keys
`"from"`/`"to"`). -/
structure DSXFlow where
  link : String
  fromStage : String
  toStage : String
  columns : Option (List DSXColumn)
deriving DecidableEq

structure DSXFilter where
  name : String
  condition : String
deriving DecidableEq

/-- Specialized stages are never produced by the parser but participate in
validation (`s.name`). -/
structure DSXSpecialStage where
  name : String
deriving DecidableEq

structure DSXMetadata where
  extractedAt : String
  version : String
  tokenCount : Option Nat
deriving DecidableEq

structure DSXJobInfo where
  name : String
  description : String
  type : String
  parameters : List DSXParameter
  sources : List DSXSource
  targets : List DSXTarget
  transforms : List DSXTransform
  sql_scripts : List DSXSqlScript
  lookups : List DSXLookup
  filters : List DSXFilter
  specialized_stages : List DSXSpecialStage
  flow : List DSXFlow
  metadata : DSXMetadata
deriving DecidableEq

/-! ### Record (string-keyed object) helpers -/

/-- `Record<string, α>` lookup over an insertion-ordered association list:
the last binding for a key wins, matching JavaScript property assignment. -/
def lookupRec (m : List (String × α)) (k : String) : Option α :=
  m.foldl (fun acc p => if p.1 == k then some p.2 else acc) none

/-- The value list of a record. -/
def recValues (m : List (String × α)) : List α := m.map (fun p => p.2)


/-! ### Matchers for the section extractors' regular expressions -/

/-- First (leftmost) match of a matcher in the input
(`String.prototype.match` without the `g` flag). -/
def firstP (p : P α) (s : List Char) : Option α :=
  (seekP p s).map (fun r => r.1)

/-- `KEY"([^"]*)"` (possibly-empty capture). -/
def quotedAnyM (key : String) : P String := fun s => do
  let (_, s1) ← pLit key s
  let (cap, s2) ← pRun0 (fun c => !(c == '"')) s1
  let (_, s3) ← pLit "\"" s2
  pure (strOf cap, s3)

/-- `/BEGIN DSRECORD[\s\S]*?Name "([^"]+)"[\s\S]*?StageType "([^"]+)"[\s\S]*?END DSRECORD/g`
(dsxParser.ts line 178). -/
def stageTypeM : P (String × String) := fun s => do
  let (_, s1) ← pLit "BEGIN DSRECORD" s
  let (nm, s2) ← seekP (quotedCapM "Name \"") s1
  let (ty, s3) ← seekP (quotedCapM "StageType \"") s2
  let (_, s4) ← seekP (pLit "END DSRECORD") s3
  pure ((nm, ty), s4)

/-- `/XMLProperties[\s\S]*?Value =\+=\+=\+=([\s\S]*?)=\+=\+=\+=/g` (line 191). -/
def xmlPropsM : P String := fun s => do
  let (_, s1) ← pLit "XMLProperties" s
  let (v, s2) ← seekP (sentCapM "Value =+=+=+=") s1
  pure (v, s2)

/-- `/<Context[^>]*>(\d+)<\/Context>/` (line 196), value via `parseInt`. -/
def contextM : P Nat := fun s => do
  let (_, s1) ← pLit "<Context" s
  let (_, s2) ← pRun0 (fun c => !(c == '>')) s1
  let (_, s3) ← pLit ">" s2
  let (ds, s4) ← pRun1 isJsDigit s3
  let (_, s5) ← pLit "</Context>" s4
  pure (natOfDigits ds, s5)

/-- `/<TAG[^>]*>\s*<!\[CDATA\[(.*?)\]\]>/` with or without the `s` flag
(`openTag` includes the `<`). -/
def cdataM (openTag : String) (dotAll : Bool) : P String := fun s => do
  let (_, s1) ← pLit openTag s
  let (_, s2) ← pRun0 (fun c => !(c == '>')) s1
  let (_, s3) ← pLit ">" s2
  let (_, s4) ← pRun0 isJsWs s3
  let (_, s5) ← pLit "<![CDATA[" s4
  let (cap, s6) ← lazyUntil (if dotAll then fun _ => true else isDotChar) (pLit "]]>") [] s5
  pure (strOf cap, s6)

/-- The optional `(?:HelpTxt "([^"]*)"\s+)?` group of the parameter
pattern. -/
def helpBranchM : P String := fun s => do
  let (h, s1) ← quotedAnyM "HelpTxt \"" s
  let (_, s2) ← pRun1 isJsWs s1
  pure (h, s2)

/-- The parameter sub-record pattern (line 130); the type code is mapped
through `paramTypeLabel` at push time (line 157). -/
def paramM : P DSXParameter := fun s => do
  let (_, s1) ← pLit "BEGIN DSSUBRECORD" s
  let (_, s2) ← pRun1 isJsWs s1
  let (nm, s3) ← quotedCapM "Name \"" s2
  let (_, s4) ← pRun1 isJsWs s3
  let (pr, s5) ← quotedAnyM "Prompt \"" s4
  let (_, s6) ← pRun1 isJsWs s5
  let (df, s7) ← quotedAnyM "Default \"" s6
  let (_, s8) ← pRun1 isJsWs s7
  let hr :=
    match helpBranchM s8 with
    | some (h, r) => (h, r)
    | none => ("", s8)
  let (ty, s9) ← quotedCapM "ParamType \"" hr.2
  pure (⟨nm, pr, df, hr.1, paramTypeLabel ty⟩, s9)

/-- `/StageType "PxLookup"[\s\S]*?Name "([^"]+)"[\s\S]*?(?:END DSRECORD)/g`
(line 323); also returns `match[0]` (the lookup section text). -/
def lookupM : P (String × List Char) := fun s => do
  let (_, s1) ← pLit "StageType \"PxLookup\"" s
  let (nm, s2) ← seekP (quotedCapM "Name \"") s1
  let (_, s3) ← seekP (pLit "END DSRECORD") s2
  pure ((nm, s.take (s.length - s3.length)), s3)

/-- The `Identifier "([^"]+P\d+)"` head of the lookup-input pattern
(line 340): the quoted run must end in `P` followed by one or more digits,
with at least one character before the `P`. -/
def pinIdM : P String := fun s => do
  let (_, s1) ← pLit "Identifier \"" s
  let (run, s2) ← pRun1 (fun c => !(c == '"')) s1
  let (_, s3) ← pLit "\"" s2
  let revRun := run.reverse
  let ds := revRun.takeWhile isJsDigit
  match revRun.drop ds.length with
  | 'P' :: rest0 =>
    if ds.isEmpty || rest0.isEmpty then none else pure (strOf run, s3)
  | _ => none

/-- `Partner "([^|]*)"`: the greedy non-pipe run is backtracked to the last
quote inside it. -/
def partnerM : P String := fun s => do
  let (_, s1) ← pLit "Partner \"" s
  let run := s1.takeWhile (fun c => !(c == '|'))
  match run.reverse.findIdx? (fun c => c == '"') with
  | none => none
  | some k => pure (strOf (run.take (run.length - 1 - k)), s1.drop (run.length - k))

/-- `/Identifier "([^"]+P\d+)"[\s\S]*?Name "([^"]+)"[\s\S]*?Partner "([^|]*)"/g`
(line 340), yielding the input-link name (capture 2). -/
def lookupInputM : P String := fun s => do
  let (_, s1) ← pinIdM s
  let (nm, s2) ← seekP (quotedCapM "Name \"") s1
  let (_, s3) ← seekP partnerM s2
  pure (nm, s3)

/-- `/KeyPosition "([^0])"[\s\S]*?Name "([^"]+)"/g` (line 356). -/
def keyColM : P String := fun s => do
  let (_, s1) ← pLit "KeyPosition \"" s
  let (_, s2) ← pChar (fun c => !(c == '0')) s1
  let (_, s3) ← pLit "\"" s2
  let (nm, s4) ← seekP (quotedCapM "Name \"") s3
  pure (nm, s4)

/-- `/Name "dataset"[\s\S]*?Value "([^"]+)"/g` (line 387). -/
def datasetM : P String := fun s => do
  let (_, s1) ← pLit "Name \"dataset\"" s
  let (v, s2) ← seekP (quotedCapM "Value \"") s1
  pure (v, s2)

/-- `/Name "datasetmode"[\s\S]*?Value "([^"]+)"/` (line 414). -/
def datasetModeM : P String := fun s => do
  let (_, s1) ← pLit "Name \"datasetmode\"" s
  let (v, s2) ← seekP (quotedCapM "Value \"") s1
  pure (v, s2)

/-- `/Name "TrxGenCode"[\s\S]*?Value =\+=\+=\+=([\s\S]*?)=\+=\+=\+=/g`
(line 423). -/
def trxM : P String := fun s => do
  let (_, s1) ← pLit "Name \"TrxGenCode\"" s
  let (v, s2) ← seekP (sentCapM "Value =+=+=+=") s1
  pure (v, s2)

/-- `/KEYWORD\s+\d+\s+([^;]+);/` for `inputname`/`outputname` (lines
465-466). -/
def ioNameM (kw : String) : P String := fun s => do
  let (_, s1) ← pLit kw s
  let (_, s2) ← pRun1 isJsWs s1
  let (_, s3) ← pRun1 isJsDigit s2
  let (_, s4) ← pRun1 isJsWs s3
  let (cap, s5) ← pRun1 (fun c => !(c == ';')) s4
  let (_, s6) ← pLit ";" s5
  pure (strOf cap, s6)

/-- The `\)\s*\{\s*reject\s+\d+\s*;` tail of the reject pattern (line
477). -/
def rejectStopM : P Unit := fun s => do
  let (_, s1) ← pLit ")" s
  let (_, s2) ← pRun0 isJsWs s1
  let (_, s3) ← pLit "\x7b" s2
  let (_, s4) ← pRun0 isJsWs s3
  let (_, s5) ← pLit "reject" s4
  let (_, s6) ← pRun1 isJsWs s5
  let (_, s7) ← pRun1 isJsDigit s6
  let (_, s8) ← pRun0 isJsWs s7
  let (_, s9) ← pLit ";" s8
  pure ((), s9)

/-- `/if\s*\((.*?)\)\s*\{\s*reject\s+\d+\s*;/g`, yielding `match[0]`
(the code keeps the whole matched strings, line 477). -/
def rejectM : P String := fun s => do
  let (_, s1) ← pLit "if" s
  let (_, s2) ← pRun0 isJsWs s1
  let (_, s3) ← pLit "(" s2
  let (_, s4) ← lazyUntil isDotChar rejectStopM [] s3
  pure (strOf (s.take (s.length - s4.length)), s4)

/-- `/if\s*\((.*?)\)/` applied to each kept reject match (line 480). -/
def innerCondM : P String := fun s => do
  let (_, s1) ← pLit "if" s
  let (_, s2) ← pRun0 isJsWs s1
  let (_, s3) ← pLit "(" s2
  let (cap, s4) ← lazyUntil isDotChar (pLit ")") [] s3
  pure (strOf cap, s4)

/-- `condition ? condition[1].trim() : ""` (line 481). -/
def innerCond (m : String) : String :=
  match seekP innerCondM m.data with
  | some (cap, _) => trimS cap
  | none => ""

/-- The `P\d+"` stop of the output-pin identifier `"V.*?P\d+"` (line
495). -/
def pinStopM : P Unit := fun s => do
  let (_, s1) ← pLit "P" s
  let (_, s2) ← pRun1 isJsDigit s1
  let (_, s3) ← pLit "\"" s2
  pure ((), s3)

/-- The `(?:MetaBag|END DSRECORD)` terminator of the columns capture. -/
def colStopM : P Unit := fun s =>
  match pLit "MetaBag" s with
  | some r => some r
  | none => pLit "END DSRECORD" s

/-- `/Identifier "V.*?P\d+"[\s\S]*?Name "([^"]+)"[\s\S]*?Columns "COutputColumn"([\s\S]*?)(?:MetaBag|END DSRECORD)/g`
(line 495), yielding link name and columns content. -/
def outputPinM : P (String × List Char) := fun s => do
  let (_, s1) ← pLit "Identifier \"V" s
  let (_, s2) ← lazyUntil isDotChar pinStopM [] s1
  let (ln, s3) ← seekP (quotedCapM "Name \"") s2
  let (_, s4) ← seekP (pLit "Columns \"COutputColumn\"") s3
  let (content, s5) ← lazyUntil (fun _ => true) colStopM [] s4
  pure ((ln, content), s5)

/-- `/Name "([^"]+)"[\s\S]*?SqlType "([^"]+)"[\s\S]*?Precision "([^"]+)"[\s\S]*?Scale "([^"]+)"[\s\S]*?Nullable "([^"]+)"/g`
(line 504). -/
def colM : P (String × String × String × String × String) := fun s => do
  let (nm, s1) ← quotedCapM "Name \"" s
  let (ty, s2) ← seekP (quotedCapM "SqlType \"") s1
  let (pr, s3) ← seekP (quotedCapM "Precision \"") s2
  let (sc, s4) ← seekP (quotedCapM "Scale \"") s3
  let (nu, s5) ← seekP (quotedCapM "Nullable \"") s4
  pure ((nm, ty, pr, sc, nu), s5)

/-- `/Name "([^"]+)"[\s\S]*?Derivation "([^"]+)"/g` (line 528). -/
def derivM : P (String × String) := fun s => do
  let (nm, s1) ← quotedCapM "Name \"" s
  let (dv, s2) ← seekP (quotedCapM "Derivation \"") s1
  pure ((nm, dv), s2)

/-- `/BEGIN DSRECORD[\s\S]*?StageType "Link"[\s\S]*?FromStageID "([^"]+)"[\s\S]*?ToStageID "([^"]+)"[\s\S]*?END DSRECORD/g`
(line 601, the fallback flow strategy). -/
def linkFallbackM : P (String × String) := fun s => do
  let (_, s1) ← pLit "BEGIN DSRECORD" s
  let (_, s2) ← seekP (pLit "StageType \"Link\"") s1
  let (f, s3) ← seekP (quotedCapM "FromStageID \"") s2
  let (t, s4) ← seekP (quotedCapM "ToStageID \"") s3
  let (_, s5) ← seekP (pLit "END DSRECORD") s4
  pure ((f, t), s5)

/-! ### Section processors -/

/-- JavaScript truthiness of an optional string property (`undefined` and
`""` are falsy). -/
def jsTruthyO : Option String → Bool
  | some v => !(v == "")
  | none => false

/-- The stage id→name correlation loop (lines 169-175): positional zip,
skipping pairs whose trimmed name is the literal `" "` placeholder. -/
def buildStageMap (ids : List String) (names : List String) : List (String × String) :=
  (ids.zip names).foldl (fun m p => if p.2 == " " then m else m ++ [p]) []

/-- The stage-name→type map (lines 178-188); the captures are non-empty so
only the `!== " "` test is operative. -/
def buildStageTypeMap (s : List Char) : List (String × String) :=
  (globalScan (s.length + 1) stageTypeM s).foldl
    (fun m p => if p.1 == " " then m else m ++ [p]) []

/-- The id→name map as the extractor builds it: empty when either
pipe-delimited list is absent (lines 162-175). -/
def stageMapOf (s : List Char) : List (String × String) :=
  match firstLazyCap "StageList \"" s, firstLazyCap "StageNames \"" s with
  | some sl, some sn =>
    buildStageMap ((splitOnChar '|' sl.data).map strOf)
      ((splitOnChar '|' sn.data).map (fun x => trimS (strOf x)))
  | _, _ => []

/-- `dsx_content.substring(0, idx).split("BEGIN DSRECORD").pop()` then
`match(/Name "([^"]+)"/)` — owning-stage-name resolution from the
preceding record header (lines 199-200, 430-431). -/
def stageNameBefore (doc : List Char) (idx : Nat) : Option String :=
  firstCap "Name \"" (lastSegAfter "BEGIN DSRECORD" (doc.take idx))

/-- SQL normalization for sources: trim, collapse whitespace runs, strip
block comments (lines 221-223). -/
def normalizeSelect (raw : String) : String :=
  let sql1 := collapseWsL (trimL raw.data)
  strOf (stripComments (sql1.length + 1) sql1)

/-- Connection-string parameter redaction (line 245). -/
def redactConn (v : String) : String :=
  strOf (redactParams (v.data.length + 1) v.data)

/-- The context-1 source builder (lines 210-257): SQL first (with WHERE
clauses), table fallback only when the SQL field is falsy, connection and
database opportunistically; emitted only when SQL or table is truthy. -/
def processSourceContext (nm ty : String) (xml : List Char) : Option DSXSource :=
  let sqlOpt := (firstP (cdataM "<SelectStatement" true) xml).map normalizeSelect
  let wcs :=
    match sqlOpt with
    | some q => extractWhereClauses q
    | none => []
  let whereOpt := if sqlOpt.isSome && !wcs.isEmpty then some wcs else none
  let tblOpt := if jsTruthyO sqlOpt then none else firstP (cdataM "<TableName" false) xml
  let connOpt := (firstP (cdataM "<Server" false) xml).map redactConn
  let dbOpt := firstP (cdataM "<Database" false) xml
  if jsTruthyO sqlOpt || jsTruthyO tblOpt then
    some ⟨nm, ty, [], sqlOpt, whereOpt, tblOpt, connOpt, dbOpt⟩
  else none

/-- `modes[parseInt(writeMode)]` guarded by `0 <= i < 4` (lines 272-279). -/
def writeModeOf (v : String) : Option String :=
  match jsParseInt v with
  | some k =>
    if k == 0 then some "Append"
    else if k == 1 then some "Create"
    else if k == 2 then some "Truncate"
    else if k == 3 then some "Replace"
    else none
  | none => none

/-- The context-2 target builder (lines 258-296); emitted only when the
table field is truthy (`dataset` is never set and `columns` is empty
here). -/
def processTargetContext (nm ty : String) (xml : List Char) : Option DSXTarget :=
  let tblOpt := firstP (cdataM "<TableName" false) xml
  let modeOpt :=
    match firstP (cdataM "<WriteMode" false) xml with
    | some v => writeModeOf v
    | none => none
  let connOpt := (firstP (cdataM "<Server" false) xml).map redactConn
  let dbOpt := firstP (cdataM "<Database" false) xml
  if jsTruthyO tblOpt then some (.ctx nm ty [] tblOpt modeOpt connOpt dbOpt)
  else none

/-- One property block, source side: requires an owning stage name
(line 202 `continue`) and context `1`. -/
def processSourceBlock (doc : List Char) (stm : List (String × String)) :
    Nat × String → Option DSXSource
  | (idx, xml) =>
    match stageNameBefore doc idx with
    | none => none
    | some nm =>
      match firstP contextM xml.data with
      | some 1 => processSourceContext nm ((lookupRec stm nm).getD "source") xml.data
      | _ => none

/-- One property block, target side: context `2`. -/
def processTargetBlock (doc : List Char) (stm : List (String × String)) :
    Nat × String → Option DSXTarget
  | (idx, xml) =>
    match stageNameBefore doc idx with
    | none => none
    | some nm =>
      match firstP contextM xml.data with
      | some 2 => processTargetContext nm ((lookupRec stm nm).getD "target") xml.data
      | _ => none

/-- `/SELECT|INSERT|UPDATE|DELETE|CREATE|DROP|ALTER/i.test(sql)`
(line 305). -/
def containsSqlVerb (s : String) : Bool :=
  hasSubCI "SELECT".data s.data || hasSubCI "INSERT".data s.data ||
  hasSubCI "UPDATE".data s.data || hasSubCI "DELETE".data s.data ||
  hasSubCI "CREATE".data s.data || hasSubCI "DROP".data s.data ||
  hasSubCI "ALTER".data s.data

/-- SQL-script normalization: collapse space runs, then re-indent
continuation lines (lines 307-309). -/
def normalizeScript (sql : String) : String :=
  let sp := collapseSpacesL sql.data
  strOf (nlNorm (sp.length + 1) sp)

/-- One named SQL fragment of a property block (lines 300-317). -/
def scriptOf (nm : String) (xml : List Char) (t : String) : List DSXSqlScript :=
  match firstP (cdataM ("<" ++ t) true) xml with
  | some raw =>
    let sql := trimS raw
    if containsSqlVerb sql then [⟨nm, t, normalizeScript sql⟩] else []
  | none => []

/-- The SQL-script pass over one property block: requires the owning stage
name and any context marker (the loop is inside `if (contextMatch)`). -/
def processScriptsBlock (doc : List Char) : Nat × String → List DSXSqlScript
  | (idx, xml) =>
    match stageNameBefore doc idx with
    | none => []
    | some nm =>
      match firstP contextM xml.data with
      | some _ =>
        scriptOf nm xml.data "BeforeSQL" ++ scriptOf nm xml.data "AfterSQL" ++
          scriptOf nm xml.data "SelectStatement"
      | none => []

/-- `lookupTypeMap[code] || code` (lines 366-371). -/
def lookupTypeLabel (c : String) : String :=
  if c = "0" then "Normal"
  else if c = "1" then "Sparse"
  else if c = "2" then "Range"
  else c

/-- One lookup section (lines 326-384): inputs are collected only when a
`LookupFail` policy is present (and `fail_mode` is set only if at least one
input matched); emitted only with at least one input or key column. -/
def processLookup : String × List Char → Option DSXLookup
  | (nm, sect) =>
    let inputsAll := globalScan (sect.length + 1) lookupInputM sect
    let condOpt := firstCap "LookupFail \"" sect
    let inputs := if condOpt.isSome then inputsAll else []
    let fm :=
      match condOpt with
      | some c => if inputsAll.isEmpty then "" else c
      | none => ""
    let keys := globalScan (sect.length + 1) keyColM sect
    let ltOpt := (firstCap "LookupType \"" sect).map lookupTypeLabel
    let resOpt := firstCap "ResidualHandler \"" sect
    if !inputs.isEmpty || !keys.isEmpty then
      some ⟨nm, "Lookup", inputs, "", keys, fm, ltOpt, resOpt⟩
    else none

/-- One dataset target (lines 390-419): always emitted; the stage name
comes from a 500-character window before the match, the mode from a
±200-character window. -/
def processDataset (doc : List Char) : Nat × String → DSXTarget
  | (idx, path) =>
    let parts := splitOnChar '/' path.data
    let lastp := (parts.getLast?).getD []
    let dsName := if lastp.isEmpty then path else strOf lastp
    let surrounding := (doc.take idx).drop (idx - 500)
    let nmOpt := firstCap "Name \"" surrounding
    let ctxRange := (doc.take (idx + 200)).drop (idx - 200)
    let modeOpt := firstP datasetModeM ctxRange
    .dataset dsName nmOpt modeOpt

/-- The boilerplate substrings excluded from rule lines (lines 443-450). -/
def trxBoilerplate (line : List Char) : Bool :=
  hasSub "RowRejected".data line || hasSub "NullSet".data line ||
  hasSub "inputname".data line || hasSub "outputname".data line ||
  hasSub "initialize".data line || hasSub "mainloop".data line ||
  hasSub "finish".data line || hasSub "writerecord".data line

/-- The per-line rule filter (lines 438-456). -/
def trxRuleOf (line : List Char) : Option String :=
  if line.contains '=' && !("//".data.isPrefixOf (trimL line)) &&
      !("int".data.isPrefixOf (trimL line)) && !trxBoilerplate line then
    let cl := trimL line
    if cl.isEmpty then none else some (strOf (collapseWsAux false cl))
  else none

/-- One transform block (lines 426-489): stage name defaults to
`"unknown"`, reject conditions are kept only when the raw match list was
non-null, and the transform is emitted only with at least one rule. -/
def processTrx (doc : List Char) : Nat × String → Option DSXTransform
  | (idx, rawCode) =>
    let code := trimL rawCode.data
    let nm := (stageNameBefore doc idx).getD "unknown"
    let rules := (splitOnChar '\n' code).filterMap trxRuleOf
    let inOpt := firstP (ioNameM "inputname") code
    let outOpt := firstP (ioNameM "outputname") code
    let rejectsRaw := globalScan (code.length + 1) rejectM code
    let rejOpt :=
      if rejectsRaw.isEmpty then none
      else some ((rejectsRaw.map innerCond).filter (fun c => !(c == "")))
    if rules.isEmpty then none else some ⟨nm, rules, inOpt, outOpt, rejOpt⟩

/-- `columns.find(c => c.name === colName)` followed by derivation
assignment (lines 536-539): update the first matching column. -/
def setDerivFirst : List DSXColumn → String → String → List DSXColumn
  | [], _, _ => []
  | c :: cs, nm, dv =>
    if c.name == nm then { c with derivation := some dv } :: cs
    else c :: setDerivFirst cs nm dv

/-- Columns of one output pin (lines 498-544): system columns (`APT_`,
`DSLink` prefixes) are skipped, then derivations are attached by name. -/
def colsOfContent (content : List Char) : List DSXColumn :=
  let base := (globalScan (content.length + 1) colM content).filterMap
    (fun q =>
      if "APT_".data.isPrefixOf q.1.data || "DSLink".data.isPrefixOf q.1.data then none
      else some ⟨q.1, mapSqlType q.2.1 q.2.2.1 q.2.2.2.1, q.2.2.2.2 == "1", none⟩)
  (globalScan (content.length + 1) derivM content).foldl
    (fun cs p => setDerivFirst cs p.1 (strOf (collapseWsAux false (trimL p.2.data)))) base

/-- The link-name → column-list record (lines 492-545). -/
def buildColMap (s : List Char) : List (String × List DSXColumn) :=
  (globalScan (s.length + 1) outputPinM s).foldl
    (fun m p =>
      let cols := colsOfContent p.2
      if cols.isEmpty then m else m ++ [(p.1, cols)]) []

/-- One index of the primary flow loop (lines 561-597): source id is the
prefix of the pin before its first `P`, both ids must be in range and
truthy, both resolved names must be non-placeholder. -/
def flowEntryAt (m : List (String × String)) (cm : List (String × List DSXColumn))
    (ln pins tgs : List String) (i : Nat) : Option DSXFlow :=
  let linkName := (ln.get? i).getD ""
  let srcId : Option String :=
    match pins.get? i with
    | some p =>
      if p == "" then none
      else
        let p0 := jsSplitHead "P".data p.data
        if p0.isEmpty then none else some (strOf p0)
    | none => none
  let tgtId : Option String :=
    match tgs.get? i with
    | some t => if t == "" then none else some t
    | none => none
  match srcId, tgtId with
  | some sid, some tid =>
    let fromS := (lookupRec m sid).getD "Unknown"
    let toS := (lookupRec m tid).getD "Unknown"
    if !(fromS == "Unknown") && !(toS == "Unknown") && !(fromS == " ") && !(toS == " ") then
      some ⟨linkName, fromS, toS, lookupRec cm linkName⟩
    else none
  | _, _ => none

/-- Flow assembly (lines 548-618): the primary parallel-list strategy when
`LinkNames` is present (link names filtered to non-blank), otherwise the
direct-link-record fallback, which passes unresolved ids through. -/
def buildFlow (s : List Char) (m : List (String × String))
    (cm : List (String × List DSXColumn)) : List DSXFlow :=
  match firstLazyCap "LinkNames \"" s with
  | some lnRaw =>
    let linkNames := ((splitOnChar '|' lnRaw.data).map strOf).filter (fun x => !(trimS x == ""))
    match firstLazyCap "LinkSourcePinIDs \"" s, firstLazyCap "TargetStageIDs \"" s with
    | some sp, some tg =>
      let pins := (splitOnChar '|' sp.data).map strOf
      let tgs := (splitOnChar '|' tg.data).map strOf
      (List.range linkNames.length).filterMap (flowEntryAt m cm linkNames pins tgs)
    | _, _ => []
  | none =>
    (globalScan (s.length + 1) linkFallbackM s).map
      (fun p =>
        let fn := (lookupRec m p.1).getD p.1
        let tn := (lookupRec m p.2).getD p.2
        ⟨fn ++ "_to_" ++ tn, fn, tn, none⟩)

/-- The six collections produced inside the
`if (stageListMatch && stageNamesMatch)` guard (lines 165-619); when
either list is absent the whole block is skipped and everything stays
empty. -/
structure ExtractedSections where
  sources : List DSXSource
  targets : List DSXTarget
  transforms : List DSXTransform
  sql_scripts : List DSXSqlScript
  lookups : List DSXLookup
  flow : List DSXFlow
deriving DecidableEq

def extractSectionsOf (s : List Char) : ExtractedSections :=
  match firstLazyCap "StageList \"" s, firstLazyCap "StageNames \"" s with
  | some _, some _ =>
    let stageMap := stageMapOf s
    let stm := buildStageTypeMap s
    let xmls := globalScanIdx (s.length + 1) 0 xmlPropsM s
    let sources := xmls.filterMap (processSourceBlock s stm)
    let ctxTargets := xmls.filterMap (processTargetBlock s stm)
    let scripts := (xmls.map (processScriptsBlock s)).flatten
    let lookups := (globalScan (s.length + 1) lookupM s).filterMap processLookup
    let dsTargets := (globalScanIdx (s.length + 1) 0 datasetM s).map (processDataset s)
    let transforms := (globalScanIdx (s.length + 1) 0 trxM s).filterMap (processTrx s)
    ⟨sources, ctxTargets ++ dsTargets, transforms, scripts, lookups,
      buildFlow s stageMap (buildColMap s)⟩
  | _, _ => ⟨[], [], [], [], [], []⟩


/-! ### JSON serialization (`JSON.stringify`)

Key order is the property-insertion order of the TypeScript objects.
`undefined` (modelled as `none`) properties are omitted, exactly as
`JSON.stringify` does. -/

/-- Lowercase hex digit. -/
def hexDigit (n : Nat) : Char :=
  if n < 10 then Char.ofNat (48 + n) else Char.ofNat (87 + n)

/-- `JSON.stringify` escaping of one character. -/
def jsonEscChar (c : Char) : List Char :=
  if c == '"' then ['\\', '"']
  else if c == '\\' then ['\\', '\\']
  else if c == '\x08' then ['\\', 'b']
  else if c == '\x0c' then ['\\', 'f']
  else if c == '\n' then ['\\', 'n']
  else if c == '\r' then ['\\', 'r']
  else if c == '\t' then ['\\', 't']
  else if c.toNat < 0x20 then
    ['\\', 'u', '0', '0', hexDigit (c.toNat / 16), hexDigit (c.toNat % 16)]
  else [c]

/-- A JSON string literal. -/
def jsonStr (s : String) : String :=
  strOf ('"' :: ((s.data.map jsonEscChar).flatten ++ ['"']))

/-- A JSON object from present key/value pairs. -/
def jsonObj (fields : List (Option (String × String))) : String :=
  "\x7b" ++
    String.intercalate "," ((fields.filterMap id).map (fun p => jsonStr p.1 ++ ":" ++ p.2)) ++
  "\x7d"

/-- A JSON array. -/
def jsonArr (f : α → String) (l : List α) : String :=
  "[" ++ String.intercalate "," (l.map f) ++ "]"

/-- Present string field. -/
def fStr (k v : String) : Option (String × String) := some (k, jsonStr v)

/-- Optional string field. -/
def fOptStr (k : String) : Option String → Option (String × String)
  | some v => some (k, jsonStr v)
  | none => none

def jsonOfColumn (c : DSXColumn) : String :=
  jsonObj [fStr "name" c.name, fStr "type" c.type,
    some ("nullable", if c.nullable then "true" else "false"),
    fOptStr "derivation" c.derivation]

def jsonOfParameter (p : DSXParameter) : String :=
  jsonObj [fStr "name" p.name, fStr "prompt" p.prompt, fStr "default" p.defaultVal,
    fStr "help" p.help, fStr "type" p.type]

def jsonOfSource (src : DSXSource) : String :=
  jsonObj [fStr "name" src.name, fStr "type" src.type,
    some ("columns", jsonArr jsonOfColumn src.columns),
    fOptStr "sql" src.sql,
    (src.where_clauses).map (fun w => ("where_clauses", jsonArr jsonStr w)),
    fOptStr "table" src.table, fOptStr "connection" src.connection,
    fOptStr "database" src.database]

def jsonOfTarget : DSXTarget → String
  | .ctx nm ty cols tbl mode conn db =>
    jsonObj [fStr "name" nm, fStr "type" ty,
      some ("columns", jsonArr jsonOfColumn cols),
      fOptStr "table" tbl, fOptStr "mode" mode, fOptStr "connection" conn,
      fOptStr "database" db]
  | .dataset ds nm mode =>
    jsonObj [fStr "type" "dataset", fStr "dataset" ds, fOptStr "name" nm,
      fOptStr "mode" mode]

def jsonOfTransform (t : DSXTransform) : String :=
  jsonObj [fStr "name" t.name, some ("rules", jsonArr jsonStr t.rules),
    fOptStr "input" t.input, fOptStr "output" t.output,
    (t.reject_conditions).map (fun r => ("reject_conditions", jsonArr jsonStr r))]

def jsonOfScript (q : DSXSqlScript) : String :=
  jsonObj [fStr "stage" q.stage, fStr "type" q.type, fStr "sql" q.sql]

def jsonOfLookup (l : DSXLookup) : String :=
  jsonObj [fStr "name" l.name, fStr "type" l.type,
    some ("inputs", jsonArr jsonStr l.inputs), fStr "output" l.output,
    some ("key_columns", jsonArr jsonStr l.key_columns),
    fStr "fail_mode" l.fail_mode, fOptStr "lookup_type" l.lookup_type,
    fOptStr "residual_handling" l.residual_handling]

def jsonOfFilter (f : DSXFilter) : String :=
  jsonObj [fStr "name" f.name, fStr "condition" f.condition]

def jsonOfSpecial (sp : DSXSpecialStage) : String :=
  jsonObj [fStr "name" sp.name]

def jsonOfFlow (c : DSXFlow) : String :=
  jsonObj [fStr "link" c.link, fStr "from" c.fromStage, fStr "to" c.toStage,
    (c.columns).map (fun cols => ("columns", jsonArr jsonOfColumn cols))]

def jsonOfMetadata (m : DSXMetadata) : String :=
  jsonObj [fStr "extractedAt" m.extractedAt, fStr "version" m.version,
    (m.tokenCount).map (fun n => ("tokenCount", toString n))]

def jsonOfJobInfo (d : DSXJobInfo) : String :=
  jsonObj [fStr "name" d.name, fStr "description" d.description, fStr "type" d.type,
    some ("parameters", jsonArr jsonOfParameter d.parameters),
    some ("sources", jsonArr jsonOfSource d.sources),
    some ("targets", jsonArr jsonOfTarget d.targets),
    some ("transforms", jsonArr jsonOfTransform d.transforms),
    some ("sql_scripts", jsonArr jsonOfScript d.sql_scripts),
    some ("lookups", jsonArr jsonOfLookup d.lookups),
    some ("filters", jsonArr jsonOfFilter d.filters),
    some ("specialized_stages", jsonArr jsonOfSpecial d.specialized_stages),
    some ("flow", jsonArr jsonOfFlow d.flow),
    some ("metadata", jsonOfMetadata d.metadata)]

/-- The `basicInfo` object of `estimateTokenUsage` (lines 32-37). -/
def jsonBasic (d : DSXJobInfo) : String :=
  jsonObj [fStr "name" d.name, fStr "description" d.description, fStr "type" d.type,
    some ("metadata", jsonOfMetadata d.metadata)]

/-- `Math.ceil(len / 4)`. -/
def ceil4 (n : Nat) : Nat := (n + 3) / 4

structure TokenUsage where
  total : Nat
  breakdown : List (String × Nat)
deriving DecidableEq

/-- `estimateTokenUsage` (dsxParser.ts lines 13-44): total is the serialized
length over four, rounded up; breakdown covers the nine array sections (in
key order) plus the combined `basic` bucket. -/
def estimateTokenUsage (d : DSXJobInfo) : TokenUsage :=
  let total := ceil4 (jsLength (jsonOfJobInfo d))
  let breakdown : List (String × Nat) :=
    [("parameters", ceil4 (jsLength (jsonArr jsonOfParameter d.parameters))),
     ("sources", ceil4 (jsLength (jsonArr jsonOfSource d.sources))),
     ("targets", ceil4 (jsLength (jsonArr jsonOfTarget d.targets))),
     ("transforms", ceil4 (jsLength (jsonArr jsonOfTransform d.transforms))),
     ("sql_scripts", ceil4 (jsLength (jsonArr jsonOfScript d.sql_scripts))),
     ("lookups", ceil4 (jsLength (jsonArr jsonOfLookup d.lookups))),
     ("filters", ceil4 (jsLength (jsonArr jsonOfFilter d.filters))),
     ("specialized_stages", ceil4 (jsLength (jsonArr jsonOfSpecial d.specialized_stages))),
     ("flow", ceil4 (jsLength (jsonArr jsonOfFlow d.flow))),
     ("basic", ceil4 (jsLength (jsonBasic d)))]
  ⟨total, breakdown⟩

/-! ### Validator (`validateExtractedData`, lines 697-740) -/

structure ValidationResult where
  valid : Bool
  issues : List String
deriving DecidableEq

/-- JavaScript `Set` insertion-order deduplication. -/
def dedupFirstAux (seen : List (Option String)) :
    List (Option String) → List (Option String)
  | [] => []
  | x :: xs =>
    if seen.contains x then dedupFirstAux seen xs
    else x :: dedupFirstAux (x :: seen) xs

/-- The `allStages` element list before deduplication (lines 721-727);
`none` models the `undefined` name of a nameless dataset target. -/
def allStageNamePool (d : DSXJobInfo) : List (Option String) :=
  d.sources.map (fun q => some q.name) ++ d.targets.map DSXTarget.nameOpt ++
  d.transforms.map (fun t => some t.name) ++ d.lookups.map (fun l => some l.name) ++
  d.specialized_stages.map (fun q => some q.name)

/-- The disconnected-stage message (line 731); `undefined` interpolates as
the string `"undefined"`. -/
def disconnectedMsg (nm : String) : String :=
  "Stage \"" ++ nm ++ "\" appears disconnected from the flow"

/-- The disconnected-stage loop (lines 729-733). -/
def disconnectedIssues (d : DSXJobInfo) : List String :=
  let froms := d.flow.map (fun c => c.fromStage)
  let tos := d.flow.map (fun c => c.toStage)
  (dedupFirstAux [] (allStageNamePool d)).filterMap
    (fun o =>
      match o with
      | some nm =>
        if froms.contains nm || tos.contains nm then none
        else some (disconnectedMsg nm)
      | none => some (disconnectedMsg "undefined"))

/-- `validateExtractedData`: pure, total, never mutates its argument; the
disconnected-stage pass runs only when the flow list is non-empty. -/
def validateExtractedData (d : DSXJobInfo) : ValidationResult :=
  let issues :=
    (if d.name == "" then ["Missing job name"] else []) ++
    (if d.type == "" then ["Missing job type"] else []) ++
    (if d.sources.isEmpty && d.targets.isEmpty then
      ["No sources or targets found - possible parsing issue"] else []) ++
    (if d.flow.isEmpty then [] else disconnectedIssues d)
  ⟨issues.isEmpty, issues⟩

/-! ### Top-level extraction (`extractDSXJobInfo`, lines 80-634)

`new Date().toISOString()` is the explicit `now` argument.  The validation
call at lines 628-631 only feeds `console.warn` and does not affect the
returned value, so it is not part of the returned-value semantics modelled
here. -/

def extractDSXJobInfo (dsx : String) (includeTokenCount : Bool) (now : String) : DSXJobInfo :=
  let s := dsx.data
  let secs := extractSectionsOf s
  let base : DSXJobInfo :=
    { name := (firstCap "Identifier \"" s).getD ""
      description :=
        match firstSent "FullDescription =+=+=+=" s with
        | some block => descriptionOf block
        | none => ""
      type :=
        match firstCap "JobType \"" s with
        | some c => jobTypeLabel c
        | none => ""
      parameters := globalScan (s.length + 1) paramM s
      sources := secs.sources
      targets := secs.targets
      transforms := secs.transforms
      sql_scripts := secs.sql_scripts
      lookups := secs.lookups
      filters := []
      specialized_stages := []
      flow := secs.flow
      metadata := ⟨now, "1.2.0", none⟩ }
  if includeTokenCount then
    { base with
      metadata := { base.metadata with tokenCount := some (estimateTokenUsage base).total } }
  else base


/-! ## Concrete example documents and aggregates used by the verification -/

/-- A document with stage lists present and one context-1 source block. -/
def docC1guard : String :=
  "Identifier \"J\"\nBEGIN DSRECORD\nName \"S\"\nXMLProperties\nValue =+=+=+=<Context>1</Context><SelectStatement><![CDATA[SELECT A FROM T]]>=+=+=+=\nStageList \"V1\"\nStageNames \"S\"\n"

/-- The same document with the `StageNames` list removed. -/
def docC1noNames : String :=
  "Identifier \"J\"\nBEGIN DSRECORD\nName \"S\"\nXMLProperties\nValue =+=+=+=<Context>1</Context><SelectStatement><![CDATA[SELECT A FROM T]]>=+=+=+=\nStageList \"V1\"\n"

/-- Stage lists present, `LinkNames` absent, one direct link record whose
`FromStageID` is not in the stage map. -/
def docC3cex : String :=
  "StageList \"V1|V2\"\nStageNames \"A|B\"\nBEGIN DSRECORD\nStageType \"Link\"\nFromStageID \"V99\"\nToStageID \"V1\"\nEND DSRECORD\n"

/-- Stage lists plus a fully resolvable parallel-list flow. -/
def docC3w : String :=
  "StageList \"V1|V2\"\nStageNames \"A|B\"\nLinkNames \"L1\"\nLinkSourcePinIDs \"V1P1\"\nTargetStageIDs \"V2\"\n"

/-- Stage lists present and a dataset value with no stage name anywhere in
the 500-character window before it. -/
def docC4cex : String :=
  "StageList \"V1\"\nStageNames \"A\"\nName \"dataset\"\nValue \"p/q\"\n"

/-- Stage lists present and one named context-1 source block. -/
def docC4w : String :=
  "Identifier \"J\"\nBEGIN DSRECORD\nName \"S\"\nXMLProperties\nValue =+=+=+=<Context>1</Context><SelectStatement><![CDATA[SELECT A FROM T]]>=+=+=+=\nStageList \"V1\"\nStageNames \"S\"\n"

/-- An aggregate with one source, no targets and an empty flow. -/
def jobC5cex : DSXJobInfo :=
  ⟨"J", "", "T", [], [⟨"S", "source", [], none, none, none, none, none⟩],
    [], [], [], [], [], [], [], ⟨"t", "1.2.0", none⟩⟩

/-- An aggregate with one source not mentioned by its non-empty flow. -/
def jobC5w : DSXJobInfo :=
  ⟨"J", "", "T", [], [⟨"S", "source", [], none, none, none, none, none⟩],
    [], [], [], [], [], [], [⟨"l", "A", "B", none⟩], ⟨"t", "1.2.0", none⟩⟩

/-- The property-block content of the `CustomerExtract` scenario. -/
def xmlC8 : List Char :=
  "<Context>1</Context><SelectStatement><![CDATA[SELECT * FROM CUSTOMERS WHERE STATUS = 'A']]>".data

/-- A description block whose blank-line pair uses bare LF line endings. -/
def docC9cex : String := "FullDescription =+=+=+=A\n\nB=+=+=+="

/-- A description block whose blank-line pair uses CRLF line endings. -/
def docC9w : String := "FullDescription =+=+=+=A\r\n\r\nB=+=+=+="

/-! ## Supporting lemmas -/

theorem strOf_ne_empty {l : List Char} (h : l ≠ []) : strOf l ≠ "" :=
  fun he => h (congrArg String.data he)

theorem pRun1_ne {f : Char → Bool} {s r t : List Char}
    (h : pRun1 f s = some (r, t)) : r ≠ [] := by
  simp only [pRun1] at h
  split at h
  · exact absurd h (by simp)
  · rename_i hne
    simp only [Option.some.injEq, Prod.mk.injEq] at h
    obtain ⟨h1, -⟩ := h
    subst h1
    simpa [List.isEmpty_iff] using hne

theorem quotedCapM_ne {key : String} {s : List Char} {v : String} {r : List Char}
    (h : quotedCapM key s = some (v, r)) : v ≠ "" := by
  simp only [quotedCapM, bind, Option.bind_eq_some, pure, Option.some.injEq] at h
  obtain ⟨⟨u1, s1⟩, h1, ⟨cap, s2⟩, h2, ⟨u3, s3⟩, h3, h4⟩ := h
  simp only [Prod.mk.injEq] at h4
  exact h4.1 ▸ strOf_ne_empty (pRun1_ne h2)

theorem seekP_ex {α : Type} {p : P α} {s : List Char} {x : α × List Char}
    (h : seekP p s = some x) : ∃ t, p t = some x := by
  induction s with
  | nil => exact ⟨[], h⟩
  | cons c cs ih =>
    rw [seekP] at h
    split at h
    · rename_i heq
      exact ⟨c :: cs, by rw [heq]; exact h⟩
    · exact ih h

theorem firstCap_ne {key : String} {s : List Char} {v : String}
    (h : firstCap key s = some v) : v ≠ "" := by
  simp only [firstCap, Option.map_eq_some'] at h
  obtain ⟨⟨w, r⟩, hseek, rfl⟩ := h
  obtain ⟨t, ht⟩ := seekP_ex hseek
  exact quotedCapM_ne ht

theorem globalScan_succ {α : Type} (fuel : Nat) (p : P α) (s : List Char) :
    globalScan (fuel + 1) p s =
      match p s with
      | some ar => ar.1 :: globalScan fuel p ar.2
      | none =>
        match s with
        | [] => []
        | _ :: cs => globalScan fuel p cs := rfl

theorem globalScanIdx_succ {α : Type} (fuel i : Nat) (p : P α) (s : List Char) :
    globalScanIdx (fuel + 1) i p s =
      match p s with
      | some ar => (i, ar.1) :: globalScanIdx fuel (i + (s.length - ar.2.length)) p ar.2
      | none =>
        match s with
        | [] => []
        | _ :: cs => globalScanIdx fuel (i + 1) p cs := rfl

theorem globalScan_mem {α : Type} {p : P α} {a : α} :
    ∀ {fuel : Nat} {s : List Char}, a ∈ globalScan fuel p s → ∃ t r, p t = some (a, r) := by
  intro fuel
  induction fuel with
  | zero => intro s h; simp [globalScan] at h
  | succ f ih =>
    intro s h
    rw [globalScan_succ] at h
    split at h
    · rename_i y heq
      rcases List.mem_cons.mp h with h1 | h2
      · exact ⟨s, y.2, by rw [heq, h1]⟩
      · exact ih h2
    · split at h
      · simp at h
      · exact ih h

theorem globalScanIdx_mem {α : Type} {p : P α} {x : Nat × α} :
    ∀ {fuel i : Nat} {s : List Char}, x ∈ globalScanIdx fuel i p s →
      ∃ t r, p t = some (x.2, r) := by
  intro fuel
  induction fuel with
  | zero => intro i s h; simp [globalScanIdx] at h
  | succ f ih =>
    intro i s h
    rw [globalScanIdx_succ] at h
    split at h
    · rename_i y heq
      rcases List.mem_cons.mp h with h1 | h2
      · exact ⟨s, y.2, by rw [heq, h1]⟩
      · exact ih h2
    · split at h
      · simp at h
      · exact ih h

theorem lookupRec_foldl {α : Type} {k : String} {v : α} :
    ∀ {m : List (String × α)} (acc : Option α),
      m.foldl (fun acc p => if p.1 == k then some p.2 else acc) acc = some v →
      v ∈ recValues m ∨ acc = some v := by
  intro m
  induction m with
  | nil => intro acc h; exact Or.inr h
  | cons p ps ih =>
    intro acc h
    rw [List.foldl_cons] at h
    rcases ih _ h with h1 | h1
    · exact Or.inl (List.mem_cons_of_mem _ h1)
    · cases hpk : (p.1 == k) with
      | true =>
        rw [hpk, if_pos rfl] at h1
        injection h1 with h2
        subst h2
        exact Or.inl (List.mem_cons_self _ _)
      | false =>
        rw [hpk, if_neg (by simp)] at h1
        exact Or.inr h1

theorem lookupRec_mem {α : Type} {m : List (String × α)} {k : String} {v : α}
    (h : lookupRec m k = some v) : v ∈ recValues m := by
  rcases lookupRec_foldl none h with h1 | h1
  · exact h1
  · cases h1


theorem hasSub_of_isPrefixOf {sep l : List Char} (h : sep.isPrefixOf l = true) :
    hasSub sep l = true := by
  cases l with
  | nil => simpa [hasSub] using h
  | cons c cs => simp [hasSub, h]

theorem jsSplitHead_of_not_hasSub {sep : List Char} :
    ∀ {l : List Char}, hasSub sep l = false → jsSplitHead sep l = l := by
  intro l
  induction l with
  | nil => intro h; rfl
  | cons c cs ih =>
    intro h
    rw [hasSub] at h
    obtain ⟨h1, h2⟩ := Bool.or_eq_false_iff.mp h
    rw [jsSplitHead, if_neg (by simp [h1]), ih h2]

theorem jsSplitHead_pre {sep post : List Char} (hne : sep ≠ []) :
    ∀ {pre : List Char}, hasSub sep (pre ++ sep.dropLast) = false →
      jsSplitHead sep ((pre ++ sep) ++ post) = pre := by
  intro pre
  induction pre with
  | nil =>
    intro _
    cases sep with
    | nil => exact absurd rfl hne
    | cons a as =>
      simp only [List.nil_append, List.cons_append]
      have hpre : (a :: as).isPrefixOf (a :: (as ++ post)) = true := by
        rw [List.isPrefixOf_iff_prefix]
        exact (List.cons_append a as post) ▸ List.prefix_append (a :: as) post
      rw [jsSplitHead, if_pos (by simp [hpre])]
  | cons c cs ih =>
    intro h
    rw [List.cons_append] at h
    rw [hasSub] at h
    obtain ⟨hpref, hrest⟩ := Bool.or_eq_false_iff.mp h
    have hsl : 1 ≤ sep.length := List.length_pos.mpr hne
    have hx : ((c :: cs) ++ sep) ++ post = c :: ((cs ++ sep) ++ post) := by simp
    rw [hx, jsSplitHead, if_neg, ih hrest]
    intro hcond
    obtain ⟨hp, -⟩ := Bool.and_eq_true _ _ ▸ hcond
    -- transfer the prefix across the shared region of length |pre| + |sep| - 1
    have hpfx : sep <+: c :: ((cs ++ sep) ++ post) := List.isPrefixOf_iff_prefix.mp hp
    have hrw : c :: ((cs ++ sep) ++ post) =
        (c :: (cs ++ sep.dropLast)) ++ ([sep.getLast hne] ++ post) := by
      have hsep : sep.dropLast ++ [sep.getLast hne] = sep := List.dropLast_append_getLast hne
      calc c :: ((cs ++ sep) ++ post)
          = c :: ((cs ++ (sep.dropLast ++ [sep.getLast hne])) ++ post) := by rw [hsep]
        _ = (c :: (cs ++ sep.dropLast)) ++ ([sep.getLast hne] ++ post) := by simp
    have hlen : sep.length ≤ (c :: (cs ++ sep.dropLast)).length := by
      simp only [List.length_cons, List.length_append, List.length_dropLast]
      omega
    have htake : sep = List.take sep.length (c :: (cs ++ sep.dropLast)) := by
      have h1 := List.prefix_iff_eq_take.mp hpfx
      rw [hrw, List.take_append_of_le_length hlen] at h1
      exact h1
    have hcontra : sep.isPrefixOf (c :: (cs ++ sep.dropLast)) = true :=
      List.isPrefixOf_iff_prefix.mpr (List.prefix_iff_eq_take.mpr htake)
    rw [hpref] at hcontra
    cases hcontra

theorem dedupFirstAux_mem {x : Option String} :
    ∀ {l seen : List (Option String)}, x ∈ l → x ∉ seen → x ∈ dedupFirstAux seen l := by
  intro l
  induction l with
  | nil => intro seen h _; cases h
  | cons y ys ih =>
    intro seen hmem hseen
    rcases List.mem_cons.mp hmem with rfl | h2
    · have hc : (seen.contains x) = false := by
        cases hcc : seen.contains x with
        | true => exact absurd (List.elem_iff.mp hcc) hseen
        | false => rfl
      rw [dedupFirstAux, if_neg (by rw [hc]; exact Bool.false_ne_true)]
      exact List.mem_cons_self _ _
    · by_cases hxy : x = y
      · subst hxy
        have hc : (seen.contains x) = false := by
          cases hcc : seen.contains x with
          | true => exact absurd (List.elem_iff.mp hcc) hseen
          | false => rfl
        rw [dedupFirstAux, if_neg (by rw [hc]; exact Bool.false_ne_true)]
        exact List.mem_cons_self _ _
      · cases hc : (seen.contains y) with
        | true =>
          rw [dedupFirstAux, if_pos hc]
          exact ih h2 hseen
        | false =>
          rw [dedupFirstAux, if_neg (by rw [hc]; exact Bool.false_ne_true)]
          refine List.mem_cons_of_mem _ (ih h2 ?_)
          simp only [List.mem_cons, not_or]
          exact ⟨hxy, hseen⟩

theorem flowEntryAt_sound {m : List (String × String)} {cm : List (String × List DSXColumn)}
    {ln pins tgs : List String} {i : Nat} {c : DSXFlow}
    (h : flowEntryAt m cm ln pins tgs i = some c) :
    (c.fromStage ≠ "Unknown" ∧ c.fromStage ≠ " " ∧ c.fromStage ∈ recValues m) ∧
    (c.toStage ≠ "Unknown" ∧ c.toStage ≠ " " ∧ c.toStage ∈ recValues m) := by
  simp only [flowEntryAt] at h
  split at h
  · rename_i sid tid hsid htid
    split at h
    · rename_i hcond
      simp only [Bool.and_eq_true, Bool.not_eq_eq_eq_not, Bool.not_true,
        beq_eq_false_iff_ne] at hcond
      obtain ⟨⟨⟨hfu, htu⟩, hfs⟩, hts⟩ := hcond
      injection h with h1
      subst h1
      constructor
      · refine ⟨hfu, hfs, ?_⟩
        cases hl : lookupRec m sid with
        | none => rw [hl] at hfu; exact absurd rfl hfu
        | some v => exact lookupRec_mem hl
      · refine ⟨htu, hts, ?_⟩
        cases hl : lookupRec m tid with
        | none => rw [hl] at htu; exact absurd rfl htu
        | some v => exact lookupRec_mem hl
    · cases h
  · cases h

theorem flowEntryAt_skip {m : List (String × String)} {cm : List (String × List DSXColumn)}
    {ln pins tgs : List String} {i : Nat}
    (h : pins.length ≤ i ∨ tgs.length ≤ i) :
    flowEntryAt m cm ln pins tgs i = none := by
  simp only [flowEntryAt]
  rcases h with h | h
  · rw [List.get?_eq_none.mpr h]
  · rw [List.get?_eq_none.mpr h]
    split <;> simp_all


theorem processSourceContext_name {nm ty : String} {xml : List Char} {src : DSXSource}
    (h : processSourceContext nm ty xml = some src) : src.name = nm := by
  simp only [processSourceContext] at h
  repeat' split at h
  all_goals first
  | (injection h with h1; subst h1; rfl)
  | injection h

theorem processTargetContext_name {nm ty : String} {xml : List Char} {tg : DSXTarget}
    (h : processTargetContext nm ty xml = some tg) : tg.nameOpt = some nm := by
  simp only [processTargetContext] at h
  repeat' split at h
  all_goals first
  | (injection h with h1; subst h1; rfl)
  | injection h

theorem processSourceBlock_name {doc : List Char} {stm : List (String × String)}
    {ix : Nat × String} {src : DSXSource}
    (h : processSourceBlock doc stm ix = some src) : src.name ≠ "" := by
  obtain ⟨idx, xml⟩ := ix
  simp only [processSourceBlock] at h
  split at h
  · cases h
  · rename_i nm hnm
    unfold stageNameBefore at hnm
    split at h
    · rw [processSourceContext_name h]
      exact firstCap_ne hnm
    · cases h

theorem processTargetBlock_name {doc : List Char} {stm : List (String × String)}
    {ix : Nat × String} {tg : DSXTarget}
    (h : processTargetBlock doc stm ix = some tg) :
    ∀ n, tg.nameOpt = some n → n ≠ "" := by
  obtain ⟨idx, xml⟩ := ix
  simp only [processTargetBlock] at h
  split at h
  · cases h
  · rename_i nm hnm
    unfold stageNameBefore at hnm
    split at h
    · intro n hn
      rw [processTargetContext_name h] at hn
      injection hn with h2
      exact h2 ▸ firstCap_ne hnm
    · cases h

theorem lookupM_name {s : List Char} {pr : String × List Char} {r : List Char}
    (h : lookupM s = some (pr, r)) : pr.1 ≠ "" := by
  simp only [lookupM, bind, Option.bind_eq_some, pure, Option.some.injEq] at h
  obtain ⟨⟨u1, s1⟩, h1, ⟨nm, s2⟩, h2, ⟨u3, s3⟩, h3, h4⟩ := h
  obtain ⟨t, ht⟩ := seekP_ex h2
  simp only [Prod.mk.injEq] at h4
  rw [← h4.1]
  exact quotedCapM_ne ht

theorem processLookup_name {x : String × List Char} {l : DSXLookup}
    (h : processLookup x = some l) : l.name = x.1 := by
  obtain ⟨nm, sect⟩ := x
  simp only [processLookup] at h
  repeat' split at h
  all_goals first
  | (injection h with h1; subst h1; rfl)
  | injection h

theorem processTrx_name {doc : List Char} {ix : Nat × String} {t : DSXTransform}
    (h : processTrx doc ix = some t) : t.name ≠ "" := by
  obtain ⟨idx, raw⟩ := ix
  simp only [processTrx] at h
  split at h
  · cases h
  · injection h with h1
    subst h1
    show (stageNameBefore doc idx).getD "unknown" ≠ ""
    cases hs : stageNameBefore doc idx with
    | none => simp only [hs, Option.getD_none]; decide
    | some nm =>
      simp only [hs, Option.getD_some]
      unfold stageNameBefore at hs
      exact firstCap_ne hs

theorem processDataset_name {doc : List Char} {ix : Nat × String} {n : String}
    (h : (processDataset doc ix).nameOpt = some n) : n ≠ "" := by
  obtain ⟨idx, path⟩ := ix
  simp only [processDataset, DSXTarget.nameOpt] at h
  exact firstCap_ne h

theorem sections_sources_name {s : List Char} {src : DSXSource}
    (h : src ∈ (extractSectionsOf s).sources) : src.name ≠ "" := by
  unfold extractSectionsOf at h
  split at h
  · dsimp only at h
    rcases List.mem_filterMap.mp h with ⟨a, -, ha⟩
    exact processSourceBlock_name ha
  · simp at h

theorem sections_transforms_name {s : List Char} {t : DSXTransform}
    (h : t ∈ (extractSectionsOf s).transforms) : t.name ≠ "" := by
  unfold extractSectionsOf at h
  split at h
  · dsimp only at h
    rcases List.mem_filterMap.mp h with ⟨a, -, ha⟩
    exact processTrx_name ha
  · simp at h

theorem sections_lookups_name {s : List Char} {l : DSXLookup}
    (h : l ∈ (extractSectionsOf s).lookups) : l.name ≠ "" := by
  unfold extractSectionsOf at h
  split at h
  · dsimp only at h
    rcases List.mem_filterMap.mp h with ⟨a, ha2, ha⟩
    rw [processLookup_name ha]
    obtain ⟨t, r, ht⟩ := globalScan_mem ha2
    exact lookupM_name ht
  · simp at h

theorem sections_targets_name {s : List Char} {tg : DSXTarget}
    (h : tg ∈ (extractSectionsOf s).targets) : ∀ n, tg.nameOpt = some n → n ≠ "" := by
  unfold extractSectionsOf at h
  split at h
  · dsimp only at h
    rcases List.mem_append.mp h with h1 | h1
    · rcases List.mem_filterMap.mp h1 with ⟨a, -, ha⟩
      exact processTargetBlock_name ha
    · rcases List.mem_map.mp h1 with ⟨a, -, ha⟩
      intro n hn
      exact processDataset_name (ha ▸ hn)
  · simp at h


/-! ## Claim theorems -/

set_option maxRecDepth 10000

/-- C2: `extractDSXJobInfo` is a total function (it never throws) whose
metadata always carries the extraction timestamp and format version, and on
a document with no recognizable constructs (here the empty document, which
no extraction pattern matches) it returns a `JobInfo` with empty name,
description and type, all nine collections empty, and the timestamp
populated — for both values of the token-count flag. -/
theorem c2_total_and_empty_doc (s now : String) (flag : Bool) :
    (extractDSXJobInfo s flag now).metadata.extractedAt = now ∧
    (extractDSXJobInfo s flag now).metadata.version = "1.2.0" ∧
    (extractDSXJobInfo "" flag now).name = "" ∧
    (extractDSXJobInfo "" flag now).description = "" ∧
    (extractDSXJobInfo "" flag now).type = "" ∧
    (extractDSXJobInfo "" flag now).parameters = [] ∧
    (extractDSXJobInfo "" flag now).sources = [] ∧
    (extractDSXJobInfo "" flag now).targets = [] ∧
    (extractDSXJobInfo "" flag now).transforms = [] ∧
    (extractDSXJobInfo "" flag now).sql_scripts = [] ∧
    (extractDSXJobInfo "" flag now).lookups = [] ∧
    (extractDSXJobInfo "" flag now).filters = [] ∧
    (extractDSXJobInfo "" flag now).specialized_stages = [] ∧
    (extractDSXJobInfo "" flag now).flow = [] := by
  cases flag <;>
    exact ⟨rfl, rfl, rfl, rfl, rfl, rfl, rfl, rfl, rfl, rfl, rfl, rfl, rfl, rfl⟩

/-- C6: the indexed flow-assembly step is total (assembly cannot fail) and
emits no connection at any index at or past the end of the source-pin list
or of the target-stage list — such an index is simply skipped. -/
theorem c6_flow_truncation (m : List (String × String))
    (cm : List (String × List DSXColumn)) (ln pins tgs : List String) (i : Nat)
    (h : pins.length ≤ i ∨ tgs.length ≤ i) :
    flowEntryAt m cm ln pins tgs i = none :=
  flowEntryAt_skip h

theorem c6_flow_truncation_witness :
    (["V1P1"] : List String).length ≤ 1 ∧
    flowEntryAt [] [] ["l1", "l2"] ["V1P1"] ["V2", "V2"] 1 = none :=
  ⟨by decide,
    c6_flow_truncation [] [] ["l1", "l2"] ["V1P1"] ["V2", "V2"] 1 (Or.inl (by decide))⟩

/-- C7: every code in the job-type table and in the parameter-type table
maps to exactly the documented label; every code outside the respective
table maps to exactly `"Unknown (<code>)"` with the original code embedded,
and every SQL-type code outside the SQL-type table maps to exactly
`"UNKNOWN(<code>)"`. -/
theorem c7_code_tables :
    (jobTypeLabel "0" = "Server Job" ∧ jobTypeLabel "1" = "Parallel Job" ∧
     jobTypeLabel "2" = "Sequence Job" ∧ jobTypeLabel "3" = "Server Routine") ∧
    (paramTypeLabel "1" = "String" ∧ paramTypeLabel "2" = "Integer" ∧
     paramTypeLabel "3" = "Float" ∧ paramTypeLabel "4" = "Pathname" ∧
     paramTypeLabel "5" = "List" ∧ paramTypeLabel "6" = "Date" ∧
     paramTypeLabel "7" = "Time" ∧ paramTypeLabel "8" = "Timestamp" ∧
     paramTypeLabel "13" = "EnvironmentVar") ∧
    (∀ c : String, c ∉ (["0", "1", "2", "3"] : List String) →
      jobTypeLabel c = "Unknown (" ++ c ++ ")") ∧
    (∀ c : String, c ∉ (["1", "2", "3", "4", "5", "6", "7", "8", "13"] : List String) →
      paramTypeLabel c = "Unknown (" ++ c ++ ")") ∧
    (∀ c precision scale : String,
      c ∉ (["1", "2", "3", "4", "5", "6", "7", "8", "9", "10", "11", "12",
            "-1", "-2", "-3", "-4", "-5", "-6", "-7", "-8", "-9", "-10",
            "91", "92", "93"] : List String) →
      mapSqlType c precision scale = "UNKNOWN(" ++ c ++ ")") := by
  refine ⟨⟨rfl, rfl, rfl, rfl⟩, ⟨rfl, rfl, rfl, rfl, rfl, rfl, rfl, rfl, rfl⟩, ?_, ?_, ?_⟩
  · intro c hc
    simp only [List.mem_cons, List.not_mem_nil, or_false, not_or] at hc
    obtain ⟨q0, q1, q2, q3⟩ := hc
    simp [jobTypeLabel, q0, q1, q2, q3]
  · intro c hc
    simp only [List.mem_cons, List.not_mem_nil, or_false, not_or] at hc
    obtain ⟨q1, q2, q3, q4, q5, q6, q7, q8, q13⟩ := hc
    simp [paramTypeLabel, q1, q2, q3, q4, q5, q6, q7, q8, q13]
  · intro c precision scale hc
    simp only [List.mem_cons, List.not_mem_nil, or_false, not_or] at hc
    obtain ⟨q1, q2, q3, q4, q5, q6, q7, q8, q9, q10, q11, q12, r1, r2, r3, r4,
      r5, r6, r7, r8, r9, r10, t1, t2, t3⟩ := hc
    obtain ⟨cl⟩ := c
    have hbase : sqlTypeBase (String.mk cl) = "UNKNOWN(" ++ String.mk cl ++ ")" := by
      simp [sqlTypeBase, q1, q2, q3, q4, q5, q6, q7, q8, q9, q10, q11, q12,
        r1, r2, r3, r4, r5, r6, r7, r8, r9, r10, t1, t2, t3]
    have hcontains :
        ((["NUMERIC", "DECIMAL", "CHAR", "VARCHAR"] : List String).contains
          ("UNKNOWN(" ++ String.mk cl ++ ")")) = false := rfl
    simp only [mapSqlType, hbase, hcontains, Bool.false_eq_true, if_false]

theorem c7_code_tables_witness :
    (("99" : String) ∉ (["1", "2", "3", "4", "5", "6", "7", "8", "13"] : List String)) ∧
    paramTypeLabel "99" = "Unknown (99)" ∧
    jobTypeLabel "7" = "Unknown (7)" ∧
    mapSqlType "99" "5" "2" = "UNKNOWN(99)" :=
  ⟨by decide, c7_code_tables.2.2.2.1 "99" (by decide),
    c7_code_tables.2.2.1 "7" (by decide),
    c7_code_tables.2.2.2.2 "99" "5" "2" (by decide)⟩

/-- C10: the token count is set if and only if the flag is set; its value
is the ceiling of the UTF-16 length of the JSON serialization of the
result as it stood before the count was added (the flag-off result)
divided by four; and the count is a pure function of that aggregate. -/
theorem c10_token_count (s now : String) :
    (extractDSXJobInfo s false now).metadata.tokenCount = none ∧
    (extractDSXJobInfo s true now).metadata.tokenCount =
      some ((estimateTokenUsage (extractDSXJobInfo s false now)).total) ∧
    (estimateTokenUsage (extractDSXJobInfo s false now)).total =
      ceil4 (jsLength (jsonOfJobInfo (extractDSXJobInfo s false now))) :=
  ⟨rfl, rfl, rfl⟩


theorem extractSectionsOf_absent {s : List Char}
    (h : firstLazyCap "StageList \"" s = none ∨ firstLazyCap "StageNames \"" s = none) :
    extractSectionsOf s = ⟨[], [], [], [], [], []⟩ := by
  unfold extractSectionsOf
  rcases h with h | h
  · rw [h]
  · cases h1 : firstLazyCap "StageList \"" s
    · rfl
    · rw [h]

/-- C1 (counterexample): with `StageNames` absent the source extractor does
not run at all — the identical document with both lists present yields a
source record, the document without `StageNames` yields none — so a missing
list does not merely empty the resolver map while consumers continue. -/
theorem c1_counterexample :
    firstLazyCap "StageNames \"" docC1noNames.data = none ∧
    (extractDSXJobInfo docC1noNames false "t").sources = [] ∧
    (extractDSXJobInfo docC1guard false "t").sources =
      [⟨"S", "source", [], some "SELECT A FROM T", none, none, none, none⟩] :=
  ⟨by decide, by decide, by decide⟩

/-- C1 (amended): when either pipe-delimited stage list is absent, the
stage-id-to-name map is empty and the guarded consumers (source/target,
lookup, transform, SQL-script, column and flow extractors) are skipped
entirely, leaving their collections empty; header and parameter extraction
still run over the document. -/
theorem c1_stage_lists_absent (dsx : String) (flag : Bool) (now : String)
    (h : firstLazyCap "StageList \"" dsx.data = none ∨
      firstLazyCap "StageNames \"" dsx.data = none) :
    stageMapOf dsx.data = [] ∧
    (extractDSXJobInfo dsx flag now).sources = [] ∧
    (extractDSXJobInfo dsx flag now).targets = [] ∧
    (extractDSXJobInfo dsx flag now).transforms = [] ∧
    (extractDSXJobInfo dsx flag now).sql_scripts = [] ∧
    (extractDSXJobInfo dsx flag now).lookups = [] ∧
    (extractDSXJobInfo dsx flag now).flow = [] ∧
    (extractDSXJobInfo dsx flag now).parameters =
      globalScan (dsx.data.length + 1) paramM dsx.data := by
  have hs := extractSectionsOf_absent h
  have hmap : stageMapOf dsx.data = [] := by
    unfold stageMapOf
    rcases h with h | h
    · rw [h]
    · cases h1 : firstLazyCap "StageList \"" dsx.data
      · rfl
      · rw [h]
  refine ⟨hmap, ?_, ?_, ?_, ?_, ?_, ?_, ?_⟩
  · rw [show (extractDSXJobInfo dsx flag now).sources =
        (extractSectionsOf dsx.data).sources from by cases flag <;> rfl, hs]
  · rw [show (extractDSXJobInfo dsx flag now).targets =
        (extractSectionsOf dsx.data).targets from by cases flag <;> rfl, hs]
  · rw [show (extractDSXJobInfo dsx flag now).transforms =
        (extractSectionsOf dsx.data).transforms from by cases flag <;> rfl, hs]
  · rw [show (extractDSXJobInfo dsx flag now).sql_scripts =
        (extractSectionsOf dsx.data).sql_scripts from by cases flag <;> rfl, hs]
  · rw [show (extractDSXJobInfo dsx flag now).lookups =
        (extractSectionsOf dsx.data).lookups from by cases flag <;> rfl, hs]
  · rw [show (extractDSXJobInfo dsx flag now).flow =
        (extractSectionsOf dsx.data).flow from by cases flag <;> rfl, hs]
  · cases flag <;> rfl

theorem c1_stage_lists_absent_witness :
    firstLazyCap "StageList \"" ("x" : String).data = none ∧
    stageMapOf ("x" : String).data = [] ∧
    (extractDSXJobInfo "x" false "t").sources = [] :=
  ⟨by decide, (c1_stage_lists_absent "x" false "t" (Or.inl (by decide))).1,
    (c1_stage_lists_absent "x" false "t" (Or.inl (by decide))).2.1⟩

/-- C3 (counterexample): under the fallback strategy an unresolved raw
stage identifier passes straight through into a flow endpoint — `"V99"` is
not a key of the stage map and not one of its values, yet it appears as the
`from` endpoint. -/
theorem c3_counterexample :
    (extractDSXJobInfo docC3cex false "t").flow =
      [⟨"V99_to_A", "V99", "A", none⟩] ∧
    lookupRec (stageMapOf docC3cex.data) "V99" = none ∧
    "V99" ∉ recValues (stageMapOf docC3cex.data) :=
  ⟨by decide, by decide, by decide⟩

/-- C3 (amended): under the primary parallel-list strategy (whenever the
`LinkNames` field is present) every emitted flow connection has both
endpoints equal to known stage-map values, never the `"Unknown"` marker and
never the whitespace placeholder; the fallback strategy does not enjoy this
property, as it passes unresolved raw identifiers through. -/
theorem c3_primary_flow_resolved (dsx : String) (flag : Bool) (now : String)
    (h : (firstLazyCap "LinkNames \"" dsx.data).isSome = true) :
    ∀ c ∈ (extractDSXJobInfo dsx flag now).flow,
      (c.fromStage ≠ "Unknown" ∧ c.fromStage ≠ " " ∧
        c.fromStage ∈ recValues (stageMapOf dsx.data)) ∧
      (c.toStage ≠ "Unknown" ∧ c.toStage ≠ " " ∧
        c.toStage ∈ recValues (stageMapOf dsx.data)) := by
  intro c hc
  have hf : (extractDSXJobInfo dsx flag now).flow = (extractSectionsOf dsx.data).flow := by
    cases flag <;> rfl
  rw [hf] at hc
  unfold extractSectionsOf at hc
  split at hc
  · dsimp only at hc
    unfold buildFlow at hc
    obtain ⟨ln, hln⟩ := Option.isSome_iff_exists.mp h
    rw [hln] at hc
    dsimp only at hc
    split at hc
    · rcases List.mem_filterMap.mp hc with ⟨i, -, hE⟩
      exact flowEntryAt_sound hE
    · simp at hc
  · simp at hc

theorem c3_primary_flow_resolved_witness :
    (firstLazyCap "LinkNames \"" docC3w.data).isSome = true ∧
    (extractDSXJobInfo docC3w false "t").flow ≠ [] ∧
    (∀ c ∈ (extractDSXJobInfo docC3w false "t").flow,
      (c.fromStage ≠ "Unknown" ∧ c.fromStage ≠ " " ∧
        c.fromStage ∈ recValues (stageMapOf docC3w.data)) ∧
      (c.toStage ≠ "Unknown" ∧ c.toStage ≠ " " ∧
        c.toStage ∈ recValues (stageMapOf docC3w.data))) :=
  ⟨by decide, by decide, c3_primary_flow_resolved docC3w false "t" (by decide)⟩

/-- C4 (counterexample): a dataset target whose 500-character window
contains no stage name is stored without any name rather than dropped, so
not every stored target carries a (non-empty) name. -/
theorem c4_counterexample :
    (extractDSXJobInfo docC4cex false "t").targets =
      [DSXTarget.dataset "q" none none] ∧
    (DSXTarget.dataset "q" none none).nameOpt = none :=
  ⟨by decide, rfl⟩

/-- C4 (amended): every source, transform and lookup in the returned
aggregate has a non-empty name (the transform extractor storing the literal
`"unknown"` when its preceding record header yields no name); every target
name, when present, is non-empty — but a dataset target may be stored with
no name at all when no stage name is found near it. -/
theorem c4_entity_names (dsx : String) (flag : Bool) (now : String) :
    (∀ src ∈ (extractDSXJobInfo dsx flag now).sources, src.name ≠ "") ∧
    (∀ t ∈ (extractDSXJobInfo dsx flag now).transforms, t.name ≠ "") ∧
    (∀ l ∈ (extractDSXJobInfo dsx flag now).lookups, l.name ≠ "") ∧
    (∀ tg ∈ (extractDSXJobInfo dsx flag now).targets,
      ∀ n, tg.nameOpt = some n → n ≠ "") := by
  refine ⟨?_, ?_, ?_, ?_⟩
  · rw [show (extractDSXJobInfo dsx flag now).sources =
        (extractSectionsOf dsx.data).sources from by cases flag <;> rfl]
    intro src hs
    exact sections_sources_name hs
  · rw [show (extractDSXJobInfo dsx flag now).transforms =
        (extractSectionsOf dsx.data).transforms from by cases flag <;> rfl]
    intro t ht
    exact sections_transforms_name ht
  · rw [show (extractDSXJobInfo dsx flag now).lookups =
        (extractSectionsOf dsx.data).lookups from by cases flag <;> rfl]
    intro l hl
    exact sections_lookups_name hl
  · rw [show (extractDSXJobInfo dsx flag now).targets =
        (extractSectionsOf dsx.data).targets from by cases flag <;> rfl]
    intro tg htg
    exact sections_targets_name htg

theorem c4_entity_names_witness :
    (extractDSXJobInfo docC4w false "t").sources ≠ [] ∧
    (∀ src ∈ (extractDSXJobInfo docC4w false "t").sources, src.name ≠ "") :=
  ⟨by decide, (c4_entity_names docC4w false "t").1⟩

/-- C5 (counterexample): with an empty flow list the disconnected-stage
check does not run at all — an aggregate holding a source stage `"S"` that
appears in no flow connection still validates as `valid = true` with no
issues. -/
theorem c5_counterexample :
    validateExtractedData jobC5cex = ⟨true, []⟩ ∧
    some "S" ∈ allStageNamePool jobC5cex ∧
    jobC5cex.flow = [] :=
  ⟨by decide, by decide, rfl⟩

/-- C5 (amended): provided the flow list is non-empty, any stage name drawn
from sources, targets, transforms, lookups or specialized stages that
appears on neither side of any flow connection makes `validateExtractedData`
return `valid = false` with a disconnected-stage message naming that stage;
the validator is a pure total function (never mutates, never throws). -/
theorem c5_disconnected_stage (d : DSXJobInfo) (nm : String)
    (hflow : d.flow ≠ [])
    (hpool : some nm ∈ allStageNamePool d)
    (hdis : ∀ c ∈ d.flow, c.fromStage ≠ nm ∧ c.toStage ≠ nm) :
    (validateExtractedData d).valid = false ∧
    disconnectedMsg nm ∈ (validateExtractedData d).issues := by
  have hfrom : ((d.flow.map (fun c => c.fromStage)).contains nm) = false := by
    cases hcc : (d.flow.map (fun c => c.fromStage)).contains nm with
    | false => rfl
    | true =>
      rcases List.mem_map.mp (List.elem_iff.mp hcc) with ⟨c, hcm, he⟩
      exact absurd he ((hdis c hcm).1)
  have hto : ((d.flow.map (fun c => c.toStage)).contains nm) = false := by
    cases hcc : (d.flow.map (fun c => c.toStage)).contains nm with
    | false => rfl
    | true =>
      rcases List.mem_map.mp (List.elem_iff.mp hcc) with ⟨c, hcm, he⟩
      exact absurd he ((hdis c hcm).2)
  have hmem : disconnectedMsg nm ∈ disconnectedIssues d := by
    unfold disconnectedIssues
    refine List.mem_filterMap.mpr ⟨some nm, dedupFirstAux_mem hpool (by simp), ?_⟩
    dsimp only
    rw [hfrom, hto]
    rfl
  have hvalmem : disconnectedMsg nm ∈ (validateExtractedData d).issues := by
    show disconnectedMsg nm ∈ _ ++ (if d.flow.isEmpty then [] else disconnectedIssues d)
    rw [List.isEmpty_eq_false.mpr hflow]
    exact List.mem_append.mpr (Or.inr hmem)
  refine ⟨?_, hvalmem⟩
  show (validateExtractedData d).issues.isEmpty = false
  exact List.isEmpty_eq_false.mpr (List.ne_nil_of_mem hvalmem)

theorem c5_disconnected_stage_witness :
    jobC5w.flow ≠ [] ∧ some "S" ∈ allStageNamePool jobC5w ∧
    ((validateExtractedData jobC5w).valid = false ∧
      disconnectedMsg "S" ∈ (validateExtractedData jobC5w).issues) :=
  ⟨by decide, by decide,
    c5_disconnected_stage jobC5w "S" (by decide) (by decide) (by decide)⟩

/-- C8: for every property-block content with a CDATA-wrapped select
statement whose normalized text contains a WHERE clause, the built source
record has no table field, its `sql` field is the whitespace-normalized,
comment-stripped select text, and its `where_clauses` field holds exactly
the clauses `extractWhereClauses` parses out of that text (each predicate
between a word-boundary `WHERE` and the next `GROUP BY`/`ORDER BY`/`HAVING`
or end of string, case-insensitively, trimmed). -/
theorem c8_source_where (nm ty : String) (xml : List Char) (raw : String)
    (h : firstP (cdataM "<SelectStatement" true) xml = some raw)
    (h2 : extractWhereClauses (normalizeSelect raw) ≠ []) :
    ∃ src, processSourceContext nm ty xml = some src ∧
      src.table = none ∧ src.sql = some (normalizeSelect raw) ∧
      src.where_clauses = some (extractWhereClauses (normalizeSelect raw)) := by
  have hq : ¬(normalizeSelect raw = "") := by
    intro he
    apply h2
    rw [he]
    rfl
  have htr : jsTruthyO (some (normalizeSelect raw)) = true := by
    simp [jsTruthyO, hq]
  have hwc : (extractWhereClauses (normalizeSelect raw)).isEmpty = false := by
    cases hwe : extractWhereClauses (normalizeSelect raw) with
    | nil => exact absurd hwe h2
    | cons a l => rfl
  have hsrc : processSourceContext nm ty xml =
      some ⟨nm, ty, [], some (normalizeSelect raw),
        some (extractWhereClauses (normalizeSelect raw)), none,
        (firstP (cdataM "<Server" false) xml).map redactConn,
        firstP (cdataM "<Database" false) xml⟩ := by
    simp [processSourceContext, h, htr, hwc]
  exact ⟨_, hsrc, rfl, rfl, rfl⟩

theorem c8_source_where_witness :
    firstP (cdataM "<SelectStatement" true) xmlC8 =
      some "SELECT * FROM CUSTOMERS WHERE STATUS = 'A'" ∧
    normalizeSelect "SELECT * FROM CUSTOMERS WHERE STATUS = 'A'" =
      "SELECT * FROM CUSTOMERS WHERE STATUS = 'A'" ∧
    extractWhereClauses "SELECT * FROM CUSTOMERS WHERE STATUS = 'A'" =
      ["STATUS = 'A'"] ∧
    (∃ src, processSourceContext "CustomerExtract" "source" xmlC8 = some src ∧
      src.table = none ∧
      src.sql = some (normalizeSelect "SELECT * FROM CUSTOMERS WHERE STATUS = 'A'") ∧
      src.where_clauses =
        some (extractWhereClauses
          (normalizeSelect "SELECT * FROM CUSTOMERS WHERE STATUS = 'A'"))) :=
  ⟨by decide, by decide, by decide,
    c8_source_where "CustomerExtract" "source" xmlC8
      "SELECT * FROM CUSTOMERS WHERE STATUS = 'A'" (by decide) (by decide)⟩

/-- C9 (counterexample): with bare-LF line endings the blank-line pair does
not delimit the first paragraph — the whole block is returned with the line
breaks collapsed (`"A  B"`), not the first paragraph `"A"`, so the
description is not independent of the line-ending convention. -/
theorem c9_counterexample :
    (extractDSXJobInfo docC9cex false "t").description = "A  B" ∧
    ("A  B" : String) ≠ "A" :=
  ⟨by decide, by decide⟩

/-- C9 (amended): the first-paragraph truncation of the description splits
only on CRLF blank-line pairs (`"\r\n\r\n"`): when the trimmed block
contains no CRLF blank-line pair the whole block is returned (line breaks
collapsed, trimmed), and when it splits as `pre ++ "\r\n\r\n" ++ post` with
the first CRLF pair at the split point and `pre` non-empty, exactly `pre`
(collapsed, trimmed) is returned. -/
theorem c9_description_split (dsx now : String) (flag : Bool) (block : String)
    (h : firstSent "FullDescription =+=+=+=" dsx.data = some block) :
    (hasSub ("\r\n\r\n".data) (trimL block.data) = false →
      (extractDSXJobInfo dsx flag now).description =
        strOf (trimL (nlToSpace (trimL block.data)))) ∧
    (∀ pre post : List Char,
      trimL block.data = (pre ++ "\r\n\r\n".data) ++ post →
      pre ≠ [] →
      hasSub ("\r\n\r\n".data) (pre ++ ("\r\n\r\n".data).dropLast) = false →
      (extractDSXJobInfo dsx flag now).description = strOf (trimL (nlToSpace pre))) := by
  have hd : (extractDSXJobInfo dsx flag now).description = descriptionOf block := by
    cases flag <;> simp [extractDSXJobInfo, h]
  constructor
  · intro hno
    rw [hd]
    unfold descriptionOf
    dsimp only
    rw [jsSplitHead_of_not_hasSub hno]
    rw [ite_self]
  · intro pre post hsplit hne hocc
    rw [hd]
    unfold descriptionOf
    dsimp only
    rw [hsplit, jsSplitHead_pre (by decide) hocc]
    rw [if_neg (by simp [List.isEmpty_iff, hne])]

theorem c9_description_split_witness :
    firstSent "FullDescription =+=+=+=" docC9w.data = some "A\r\n\r\nB" ∧
    trimL ("A\r\n\r\nB" : String).data = ((['A'] ++ "\r\n\r\n".data) ++ ['B']) ∧
    (extractDSXJobInfo docC9w false "t").description = strOf (trimL (nlToSpace ['A'])) ∧
    strOf (trimL (nlToSpace ['A'])) = "A" :=
  ⟨by decide, by decide,
    (c9_description_split docC9w "t" false "A\r\n\r\nB" (by decide)).2 ['A'] ['B']
      (by decide) (by decide) (by decide), by decide⟩

end Dsx
